import Mathlib

/-!
Shallow embedding of the audio-analysis core of `src/lib/media-library.ts`
(class `AudioAnalysisCore`).

Modelling conventions:
* JS numbers are modelled as exact rationals `ℚ` (an idealization of the
  float arithmetic); `Math.floor` is `Int.floor` on `ℚ`, `Math.round` is
  the floor of `x + 1/2` (JS rounds half toward positive infinity).
* The numeric-library collaborators (essentia.js `Spectrum`, `Chromagram`,
  the `Windowing -> Spectrum -> MFCC` chain, `RMS`, `RhythmExtractor2013`,
  `RhythmExtractor`, and `arrayToVector`) are oracle parameters gathered in
  the `Essentia` structure: an `Option` result of `none` models a call that
  throws. The host transcendental primitives (`Math.cos` behind
  `getHannWindow`, `Math.sqrt`) are likewise parameters (`hann`, `sqrtF`);
  the similarity matrix is additionally analysed with `Real.sqrt` over `ℝ`
  for the exact real-number reading of `Math.sqrt`.
* A Web Audio `AudioBuffer` (and the `Float32Array` views on its channels)
  exposes `length` as a stored attribute; the model carries it as a field,
  and well-formed buffers have every channel list of exactly that length.
* `async` yielding and progress plumbing do not change any computed value;
  the sequence of values passed to `onProgress` by `detectSongStructure`
  is modelled explicitly as a list (`structureTrace`).
-/

namespace MediaLibrary

/-- Both `detectOnsets` and `detectSongStructure` use `frameSize = 2048`. -/
def frameSize : ℕ := 2048

/-- Both passes use `hopSize = 512`. -/
def hopSize : ℕ := 512

/-- Model of a Web Audio `AudioBuffer`: per-channel sample data, the sample
rate, and the `length` attribute (the per-channel sample count). -/
structure AudioBuffer where
  channels : List (List ℚ)
  sampleRate : ℚ
  length : ℕ
deriving DecidableEq

def AudioBuffer.numberOfChannels (b : AudioBuffer) : ℕ := b.channels.length

def AudioBuffer.duration (b : AudioBuffer) : ℚ := (b.length : ℚ) / b.sampleRate

/-- Model of `audioBufferToMono`: channel 0 if mono, otherwise the average
of all channels (`mono[j] += channel[j] / numberOfChannels` for each
channel). -/
def audioBufferToMono (b : AudioBuffer) : List ℚ :=
  if b.numberOfChannels = 1 then b.channels.headD []
  else
    (List.range b.length).map fun j =>
      (b.channels.map fun ch => ch.getD j 0 / (b.numberOfChannels : ℚ)).sum

/-- Oracle bundle for the essentia.js calls made by `AudioAnalysisCore`.
`arrayToVectorOk` tells whether `arrayToVector` succeeds on a given array;
an `Option` result of `none` models the underlying call throwing. Each
field folds the call together with the duck-typed result unwrapping
(`result.spectrum || result.vector || result` and similar) and
`vectorToArray`. -/
structure Essentia where
  arrayToVectorOk : List ℚ → Bool
  spectrum : List ℚ → List ℚ
  chromagram : List ℚ → Option (List ℚ)
  mfccPipeline : List ℚ → Option (List ℚ)
  rms : List ℚ → Option ℚ
  rhythm2013 : List ℚ → Option (ℚ × ℚ)
  rhythmFallback : List ℚ → Option (ℚ × ℚ)

/-- Insertion of a value into an ascending list (one step of the JS numeric
sort `(a, b) => a - b`). -/
def insertAsc (x : ℚ) : List ℚ → List ℚ
  | [] => [x]
  | y :: ys => if x ≤ y then x :: y :: ys else y :: insertAsc x ys

/-- Ascending sort, modelling `array.sort((a, b) => a - b)`. -/
def sortAsc (l : List ℚ) : List ℚ := l.foldr insertAsc []

/-- Model of `calculateThreshold(values, multiplier)`:
`median(values) + multiplier * MAD(values)`, with both the median and the
median absolute deviation read at index `floor(length / 2)` of the sorted
arrays, and `0` for an empty input. -/
def calculateThreshold (values : List ℚ) (multiplier : ℚ) : ℚ :=
  if values = [] then 0
  else
    let sorted := sortAsc values
    let median := sorted.getD (sorted.length / 2) 0
    let deviations := values.map fun v => |v - median|
    let sortedDeviations := sortAsc deviations
    let mad := sortedDeviations.getD (sortedDeviations.length / 2) 0
    median + multiplier * mad

/-- Frame start offsets of the `detectOnsets` loop
`for (i = 0; i <= length - frameSize; i += hopSize)`: the starts
`0, hopSize, 2*hopSize, ...` while `start + frameSize <= N`. -/
def onsetFrameStarts (N : ℕ) : List ℕ :=
  (List.range (if N < frameSize then 0 else (N - frameSize) / hopSize + 1)).map
    fun k => k * hopSize

/-- One windowed frame of `detectOnsets`: the `frameSize`-sample slice at
start `s` multiplied pointwise by the Hann table `getHannWindow(frameSize)`
(whose coefficients, computed in the source with the host `Math.cos`, are
the parameter `hann`). -/
def windowedFrame (hann : ℕ → ℕ → ℚ) (mono : List ℚ) (s : ℕ) : List ℚ :=
  List.zipWith (fun a c => a * c) ((mono.drop s).take frameSize)
    ((List.range frameSize).map fun n => hann frameSize n)

/-- Spectral flux sequence: frame 0 contributes 0 (no previous spectrum);
afterwards the sum over the shared bins of `max 0 (current - previous)`. -/
def fluxOfSpectra : Option (List ℚ) → List (List ℚ) → List ℚ
  | _, [] => []
  | prev, m :: rest =>
    (match prev with
     | none => 0
     | some p => ((m.zip p).map fun q => max 0 (q.1 - q.2)).sum) ::
      fluxOfSpectra (some m) rest

/-- The whole `onsetFunction` array of `detectOnsets` for a mono signal of
length attribute `N`. -/
def onsetFlux (E : Essentia) (hann : ℕ → ℕ → ℚ) (mono : List ℚ) (N : ℕ) : List ℚ :=
  fluxOfSpectra none
    ((onsetFrameStarts N).map fun s => E.spectrum (windowedFrame hann mono s))

/-- Minimum-distance gate of the peak-picking loop: `lastOnsetFrame` starts
at `-Infinity` (modelled as `none`), and a candidate at frame `i` passes
iff `i - lastOnsetFrame >= minDistanceFrames`. -/
def minDistOk : Option ℕ → ℕ → ℤ → Prop
  | none, _, _ => True
  | some l, i, mdf => mdf ≤ (i : ℤ) - (l : ℤ)

instance : ∀ (o : Option ℕ) (i : ℕ) (mdf : ℤ), Decidable (minDistOk o i mdf)
  | none, _, _ => isTrue trivial
  | some _, _, _ => inferInstanceAs (Decidable (_ ≤ _))

/-- Peak-picking loop of `detectOnsets` over the flux sequence: walks
indices `1 .. length - 2` keeping a 3-value window; a frame is accepted
iff its flux is above the threshold, a strict local maximum, and at least
`mdf` frames after the last accepted onset. Returns the accepted frame
indices in loop order. -/
def pickPeaksAux (threshold : ℚ) (mdf : ℤ) :
    ℚ → List ℚ → ℕ → Option ℕ → List ℕ
  | prev, x :: y :: rest, i, last =>
    if threshold < x ∧ prev < x ∧ y < x ∧ minDistOk last i mdf then
      i :: pickPeaksAux threshold mdf x (y :: rest) (i + 1) (some i)
    else
      pickPeaksAux threshold mdf x (y :: rest) (i + 1) last
  | _, _, _, _ => []

def pickPeaks (flux : List ℚ) (threshold : ℚ) (mdf : ℤ) : List ℕ :=
  match flux with
  | f0 :: rest => pickPeaksAux threshold mdf f0 rest 1 none
  | [] => []

/-- Result of `detectOnsets`: parallel arrays of sample indices
(`timestamps`) and seconds (`times`). -/
structure OnsetResult where
  timestamps : List ℤ
  times : List ℚ
deriving DecidableEq

/-- Model of `AudioAnalysisCore.detectOnsets`. The progress callback does
not influence the result and is omitted. -/
def detectOnsets (E : Essentia) (hann : ℕ → ℕ → ℚ) (b : AudioBuffer)
    (sensitivity minDistance : ℚ) : OnsetResult :=
  let sampleRate := b.sampleRate
  let onsetFunction := onsetFlux E hann (audioBufferToMono b) b.length
  let threshold := calculateThreshold onsetFunction sensitivity
  let minDistanceFrames : ℤ := ⌊minDistance * sampleRate / (hopSize : ℚ)⌋
  let peaks := pickPeaks onsetFunction threshold minDistanceFrames
  { timestamps := peaks.map fun i => ⌊((i * hopSize : ℕ) : ℚ) / sampleRate * sampleRate⌋
    times := peaks.map fun i => ((i * hopSize : ℕ) : ℚ) / sampleRate }

/-- Result of `detectBPM`. -/
structure BPMResult where
  bpm : ℤ
  confidence : ℚ
deriving DecidableEq

/-- JS `Math.round`: round half toward positive infinity. -/
def jsRound (x : ℚ) : ℤ := ⌊x + 1 / 2⌋

/-- JS `rhythm.bpm || rhythm.tempo || 120`: the rhythm results carry no
`tempo` field, so a falsy (`0`) bpm falls back to the literal `120`. -/
def coalesceBPM (x : ℚ) : ℚ := if x = 0 then 120 else x

/-- The bpm/confidence pair of `detectBPM` before rounding:
`RhythmExtractor2013`, then the older `RhythmExtractor`, then the
`{120, 0}` default; a falsy confidence is coalesced to 0 (identity). -/
def underlyingBPM (E : Essentia) (mono : List ℚ) : ℚ × ℚ :=
  match E.rhythm2013 mono with
  | some p => (coalesceBPM p.1, p.2)
  | none =>
    match E.rhythmFallback mono with
    | some p => (coalesceBPM p.1, p.2)
    | none => (120, 0)

/-- Model of `AudioAnalysisCore.detectBPM`: if `arrayToVector` throws, the
promise still resolves with `{bpm: 120, confidence: 0}`; otherwise the
extractor chain result is returned with `Math.round` applied to the bpm. -/
def detectBPM (E : Essentia) (b : AudioBuffer) : BPMResult :=
  let mono := audioBufferToMono b
  if E.arrayToVectorOk mono = false then { bpm := 120, confidence := 0 }
  else
    let est := underlyingBPM E mono
    { bpm := jsRound est.1, confidence := est.2 }

/-- Model of `cosineSimilarity(a, b)`: 0 for mismatched lengths, the dot
product over the product of norms otherwise, and 0 when that denominator
is 0. Generic in the scalar field so it can be read over `ℚ` with the
`sqrtF` oracle and over `ℝ` with `Real.sqrt`. -/
def cosineSimilarity {K : Type} [Field K] [DecidableEq K]
    (sqrtFn : K → K) (a b : List K) : K :=
  if a.length ≠ b.length then 0
  else
    let dotProduct := ((a.zip b).map fun p => p.1 * p.2).sum
    let normA := (a.map fun x => x * x).sum
    let normB := (b.map fun x => x * x).sum
    let denominator := sqrtFn normA * sqrtFn normB
    if denominator = 0 then 0 else dotProduct / denominator

/-- Model of `buildSimilarityMatrix(features)`: the square matrix of
pairwise cosine similarities. -/
def buildSimilarityMatrix {K : Type} [Field K] [DecidableEq K]
    (sqrtFn : K → K) (features : List (List K)) : List (List K) :=
  features.map fun fi => features.map fun fj => cosineSimilarity sqrtFn fi fj

/-- Integer range `[lo, hi)` as a list, for the JS `for` loops over
possibly-signed index spaces. -/
def intRange (lo hi : ℤ) : List ℤ := (List.range (hi - lo).toNat).map fun k => lo + (k : ℤ)

/-- Similarity-matrix access `S[r][c]`; out-of-range access is modelled as
0 (all uses by the novelty loop are in range for a positive sample rate). -/
def simGet (sim : List (List ℚ)) (r c : ℤ) : ℚ :=
  if r < 0 ∨ c < 0 then 0 else ((sim.getD r.toNat []).getD c.toNat 0)

/-- Checkerboard-kernel novelty at diagonal index `i`: the signed sum of
`S[i+k][i+l]` over `k, l` in `[-kernel, kernel]`, with weight `+1` on the
same-sign quadrants (`k*l >= 0`) and `-1` otherwise. -/
def noveltyAt (sim : List (List ℚ)) (kernel : ℤ) (i : ℤ) : ℚ :=
  ((intRange (-kernel) (kernel + 1)).map fun k =>
    ((intRange (-kernel) (kernel + 1)).map fun l =>
      (if 0 ≤ k * l then (1 : ℚ) else -1) * simGet sim (i + k) (i + l)).sum).sum

/-- Peak loop of `detectBoundaries` over the novelty list: index `j` runs
over `1 .. length - 2`; a strict local maximum above the threshold becomes
the boundary frame `j + kernel` if its time is at least
`minSectionDuration` past the last recorded boundary and at least
`minSectionDuration` before the end. `lastB` is the last entry of the
accumulated `boundaries` array (initially the forced `0`). -/
def boundaryAux (threshold : ℚ) (kernel : ℤ) (hop : ℕ) (sr dur minSec : ℚ) :
    ℚ → List ℚ → ℕ → ℤ → List ℤ
  | prev, x :: y :: rest, j, lastB =>
    let frame : ℤ := (j : ℤ) + kernel
    let t : ℚ := ((frame * (hop : ℤ) : ℤ) : ℚ) / sr
    let minT : ℚ := ((lastB * (hop : ℤ) : ℤ) : ℚ) / sr + minSec
    if threshold < x ∧ prev < x ∧ y < x ∧ minT ≤ t ∧ t < dur - minSec then
      frame :: boundaryAux threshold kernel hop sr dur minSec x (y :: rest) (j + 1) frame
    else
      boundaryAux threshold kernel hop sr dur minSec x (y :: rest) (j + 1) lastB
  | _, _, _, _ => []

/-- Index scan of the merge loop: the `i` minimizing
`boundaries[i+1] - boundaries[i]`, ties to the lowest index (the strict
`<` update), `-1` when there is no adjacent pair. -/
def minGapGo : List ℤ → ℤ → ℤ → ℤ → ℕ → ℤ
  | [], _, _, bestI, _ => bestI
  | z :: rest, prevElem, bestD, bestI, i =>
    if z - prevElem < bestD then minGapGo rest z (z - prevElem) (i : ℤ) (i + 1)
    else minGapGo rest prevElem bestD bestI (i + 1)

def minGapIndex (bs : List ℤ) : ℤ :=
  match bs with
  | x :: y :: rest => minGapGo rest y (y - x) 0 1
  | _ => -1

/-- Fuelled version of the merge loop
`while (boundaries.length > maxSections + 1) { ...splice(minIndex+1, 1) }`;
the fuel only needs to dominate the iteration count (each pass removes one
element), and `mergeBoundaries` supplies the list length. -/
def mergeGo (maxSections : ℕ) : ℕ → List ℤ → List ℤ
  | 0, bs => bs
  | fuel + 1, bs =>
    if maxSections + 1 < bs.length then
      if 0 ≤ minGapIndex bs then
        mergeGo maxSections fuel (bs.eraseIdx (minGapIndex bs + 1).toNat)
      else bs
    else bs

def mergeBoundaries (bs : List ℤ) (maxSections : ℕ) : List ℤ :=
  mergeGo maxSections bs.length bs

/-- A section of the structure result; the source attaches `confidence`
only in `labelSections`, the pre-label value is modelled as 0. -/
structure SectionBoundary where
  startSample : ℤ
  endSample : ℤ
  startTime : ℚ
  endTime : ℚ
  label : String
  confidence : ℚ
deriving DecidableEq

def noSection : SectionBoundary :=
  { startSample := 0, endSample := 0, startTime := 0, endTime := 0, label := "", confidence := 0 }

/-- The `(startSample, endSample)` pair of a section — the data the
boundary-coverage claim constrains; `labelSections` leaves it unchanged. -/
def samplePair (s : SectionBoundary) : ℤ × ℤ := (s.startSample, s.endSample)

/-- Conversion of the merged boundary frame list to `SectionBoundary`
objects: one section per adjacent pair, with times `frame*hopSize/sr` and
samples `floor(time*sr)`. -/
def adjacentSections (sr : ℚ) (hop : ℕ) : List ℤ → List SectionBoundary
  | x :: y :: rest =>
    { startSample := ⌊((x * (hop : ℤ) : ℤ) : ℚ) / sr * sr⌋
      endSample := ⌊((y * (hop : ℤ) : ℤ) : ℚ) / sr * sr⌋
      startTime := ((x * (hop : ℤ) : ℤ) : ℚ) / sr
      endTime := ((y * (hop : ℤ) : ℤ) : ℚ) / sr
      label := ""
      confidence := 0 } :: adjacentSections sr hop (y :: rest)
  | _ => []

/-- The boundary frame list of `detectBoundaries` after the forced `0`,
the accepted novelty peaks, the forced final frame `n - 1`, and the merge
loop. -/
def detectBoundariesFrames (sim : List (List ℚ)) (sr : ℚ) (hop : ℕ)
    (duration : ℚ) (maxSections : ℕ) (minSectionDuration : ℚ) : List ℤ :=
  let n : ℤ := (sim.length : ℤ)
  let kernelSize : ℤ := ⌊3 * sr / (hop : ℚ)⌋
  let nov := (intRange kernelSize (n - kernelSize)).map (noveltyAt sim kernelSize)
  let threshold := calculateThreshold nov (3 / 10)
  let accepted :=
    match nov with
    | x :: rest => boundaryAux threshold kernelSize hop sr duration minSectionDuration x rest 1 0
    | [] => []
  mergeBoundaries (0 :: (accepted ++ [n - 1])) maxSections

/-- Model of `detectBoundaries` (the `energyProfile` parameter of the
source is unused by its body and omitted). -/
def detectBoundaries (sim : List (List ℚ)) (sr : ℚ) (hop : ℕ)
    (duration : ℚ) (maxSections : ℕ) (minSectionDuration : ℚ) : List SectionBoundary :=
  adjacentSections sr hop (detectBoundariesFrames sim sr hop duration maxSections minSectionDuration)

/-- Per-section mean of `energyProfile` used by `labelSections`: the frame
range is approximated as `floor(startTime * 44.1) .. min (floor(endTime *
44.1)) length` with the hardcoded 44.1 frames-per-second constant of the
source (`// Approximate frame index`), and the mean is 0 when the range is
empty. -/
def sectionEnergy (p : List ℚ) (b : SectionBoundary) : ℚ :=
  let startFrame : ℤ := ⌊b.startTime * (441 / 10)⌋
  let endFrame : ℤ := ⌊b.endTime * (441 / 10)⌋
  let idxs := intRange startFrame (min endFrame (p.length : ℤ))
  if idxs.length = 0 then 0
  else (idxs.map fun i => p.getD i.toNat 0).sum / (idxs.length : ℚ)

/-- The `sectionEnergies` array of `labelSections`: the per-section mean
energies over the 44.1-fps approximate frame ranges. -/
def sectionEnergies (bs : List SectionBoundary) (p : List ℚ) : List ℚ :=
  bs.map (sectionEnergy p)

/-- `maxEnergy = Math.max(...sectionEnergies)` of `labelSections`
(`Math.max()` of an empty spread is `-Infinity`; every use below guards
with `maxEnergy > 0`, so the empty case is modelled as 0). -/
def maxSectionEnergy (bs : List SectionBoundary) (p : List ℚ) : ℚ :=
  ((sectionEnergies bs p).max?).getD 0

/-- The `normalizedEnergies` array of `labelSections`:
`maxEnergy > 0 ? e / maxEnergy : 0`. -/
def normalizedEnergies (bs : List SectionBoundary) (p : List ℚ) : List ℚ :=
  (sectionEnergies bs p).map fun e =>
    if 0 < maxSectionEnergy bs p then e / maxSectionEnergy bs p else 0

/-- The per-section body of the labelling `map`: fixed decision order
Intro / Outro / Chorus / Verse / Bridge-or-Break / Verse, a 1-based index
appended to the label, and the normalized energy attached as
`confidence`. -/
def labelOne (total : ℕ) (norms : List ℚ) (dur : ℚ) (index : ℕ) (b : SectionBoundary) :
    SectionBoundary :=
  let energy := norms.getD index 0
  let position := b.startTime / dur
  let lbl :=
    if index = 0 ∧ position < 1 / 10 then "Intro"
    else if index = total - 1 ∧ 4 / 5 < position then "Outro"
    else if 7 / 10 < energy then "Chorus"
    else if 2 / 5 < energy then "Verse"
    else if energy < 3 / 10 then (if 1 / 2 < position then "Bridge" else "Break")
    else "Verse"
  { b with label := lbl ++ " " ++ toString (index + 1), confidence := energy }

/-- Labelling pass of `labelSections` (the indexed `map`). -/
def labelGo (total : ℕ) (norms : List ℚ) (dur : ℚ) : ℕ → List SectionBoundary → List SectionBoundary
  | _, [] => []
  | index, b :: rest =>
    labelOne total norms dur index b :: labelGo total norms dur (index + 1) rest

/-- Model of `labelSections(boundaries, energyProfile, duration)`. -/
def labelSections (bs : List SectionBoundary) (p : List ℚ) (dur : ℚ) : List SectionBoundary :=
  if bs = [] then bs
  else labelGo bs.length (normalizedEnergies bs p) dur 0 bs

/-- The label C9 prescribes for a section, written from the claim's
words: the fixed decision order on the section index, its fractional
position `startTime / duration`, and its normalized energy, with the
1-based index appended. -/
def claimLabel (count index : ℕ) (position energy : ℚ) : String :=
  (if index = 0 ∧ position < 1 / 10 then "Intro"
   else if index = count - 1 ∧ 4 / 5 < position then "Outro"
   else if 7 / 10 < energy then "Chorus"
   else if 2 / 5 < energy then "Verse"
   else if energy < 3 / 10 then (if 1 / 2 < position then "Bridge" else "Break")
   else "Verse") ++ " " ++ toString (index + 1)

/-- `numFrames = Math.floor((audioVector.length - frameSize) / hopSize)`
of the `detectSongStructure` feature pass (note: no `+ 1`). -/
def structureNumFrames (N : ℕ) : ℤ := ⌊((N : ℚ) - (frameSize : ℚ)) / (hopSize : ℚ)⌋

/-- Frame start offsets of the `detectSongStructure` loop
`for (i = 0; i < numFrames; i++)`, start `i * hopSize`. -/
def structureFrameStarts (N : ℕ) : List ℕ :=
  (List.range (structureNumFrames N).toNat).map fun k => k * hopSize

/-- Sum of squares accumulated by the RMS loops of the feature pass. -/
def sumSq (l : List ℚ) : ℚ := (l.map fun x => x * x).sum

/-- One frame of the `detectSongStructure` feature pass: returns
`(chroma, mfcc, rms energy)`. If `arrayToVector` throws, the simplified
fallback features are used; otherwise `Chromagram` (zero vector when it
throws or has wrong arity) and the MFCC pipeline (RMS-only vector when it
throws, zero vector when both throw or the result is empty). -/
def featuresOfFrame (E : Essentia) (sqrtF : ℚ → ℚ) (frame : List ℚ) :
    List ℚ × List ℚ × ℚ :=
  let rmsVal := sqrtF (sumSq frame / (frame.length : ℚ))
  if E.arrayToVectorOk frame = false then
    let chroma := (List.range 12).map fun j => |frame.getD j 0|
    let mfcc := (List.range 13).map fun j => if j = 1 then rmsVal else 0
    (chroma, mfcc, rmsVal)
  else
    let chroma :=
      match E.chromagram frame with
      | some c => if c.length = 12 then c else List.replicate 12 0
      | none => List.replicate 12 0
    let mfcc0 :=
      match E.mfccPipeline frame with
      | some m => if m.length = 0 then List.replicate 13 0 else m
      | none =>
        match E.rms frame with
        | some r => [r]
        | none => List.replicate 13 0
    let mfcc := if 0 < mfcc0.length then mfcc0 else List.replicate 13 0
    (chroma, mfcc, rmsVal)

/-- Progress values emitted inside the feature loop: at every frame index
`i` with `i > 0` and `i % 5 = 0` (the chunk size), the value
`0.6 * (i / numFrames)`. -/
def structureLoopTrace (N : ℕ) : List ℚ :=
  let num := (structureNumFrames N).toNat
  ((List.range num).filter fun i => decide (0 < i) && decide (i % 5 = 0)).map
    fun (i : ℕ) => 3 / 5 * ((i : ℚ) / (num : ℚ))

/-- The full sequence of progress values emitted by one
`detectSongStructure` call: the loop values, then the fixed milestones
0.6, 0.8, 0.9, 0.95 and the final 1.0. -/
def structureTrace (N : ℕ) : List ℚ :=
  structureLoopTrace N ++ [3 / 5, 4 / 5, 9 / 10, 19 / 20, 1]

/-- Result of `detectSongStructure`. -/
structure SongStructureResult where
  boundaries : List SectionBoundary
  bpm : ℤ
deriving DecidableEq

/-- The `(chroma, mfcc, energy)` triples accumulated by the feature pass
of `detectSongStructure`, one per structure frame. -/
def structureFeats (E : Essentia) (sqrtF : ℚ → ℚ) (b : AudioBuffer) :
    List (List ℚ × List ℚ × ℚ) :=
  (structureFrameStarts b.length).map fun s =>
    featuresOfFrame E sqrtF (((audioBufferToMono b).drop s).take
      (min frameSize (b.length - s)))

/-- Model of `AudioAnalysisCore.detectSongStructure`: feature extraction
over the structure frame grid, chroma self-similarity matrix, boundary
detection, energy-based labelling, and tempo attachment; the second
component is the emitted progress sequence. The accumulated MFCC features
are dead downstream in the source and not retained here. -/
def detectSongStructure (E : Essentia) (sqrtF : ℚ → ℚ) (b : AudioBuffer)
    (maxSections : ℕ) (minSectionDuration : ℚ) : SongStructureResult × List ℚ :=
  let feats := structureFeats E sqrtF b
  let chromaFeatures := feats.map fun f => f.1
  let energyProfile := feats.map fun f => f.2.2
  let similarityMatrix := buildSimilarityMatrix sqrtF chromaFeatures
  let boundaries := detectBoundaries similarityMatrix b.sampleRate hopSize b.duration
    maxSections minSectionDuration
  let labeledBoundaries := labelSections boundaries energyProfile b.duration
  let bpmResult := detectBPM E b
  ({ boundaries := labeledBoundaries, bpm := bpmResult.bpm }, structureTrace b.length)

/-- Mean of `energyProfile` over a section's actual frame range
`floor(startTime * sampleRate / hopSize) .. floor(endTime * sampleRate /
hopSize)` (capped at the profile length), as claim C9 words it. Stated
from the claim's words for comparison with the implementation's
44.1-frames-per-second approximation (`sectionEnergy`). -/
def claimSectionMean (sr : ℚ) (p : List ℚ) (b : SectionBoundary) : ℚ :=
  let s : ℤ := ⌊b.startTime * sr / (hopSize : ℚ)⌋
  let e : ℤ := ⌊b.endTime * sr / (hopSize : ℚ)⌋
  let idxs := intRange s (min e (p.length : ℤ))
  if idxs.length = 0 then 0
  else (idxs.map fun i => p.getD i.toNat 0).sum / (idxs.length : ℚ)

/-- Normalized per-section confidences as claim C9 words them: the
actual-frame-range section means normalized by the maximum section
mean. -/
def claimSectionConfidences (sr : ℚ) (bs : List SectionBoundary) (p : List ℚ) : List ℚ :=
  let es := bs.map (claimSectionMean sr p)
  let maxE := (es.max?).getD 0
  es.map fun e => if 0 < maxE then e / maxE else 0

/-! Concrete inputs used by counterexamples and witnesses. -/

/-- Essentia oracle whose calls all fail (except `arrayToVector`); its
magnitude spectrum is driven by the windowed frame's first sample: a
one-bin magnitude array `[|frame[0]|]`. -/
def sampleReadE : Essentia where
  arrayToVectorOk := fun _ => true
  spectrum := fun l => [|l.getD 0 0|]
  chromagram := fun _ => none
  mfccPipeline := fun _ => none
  rms := fun _ => none
  rhythm2013 := fun _ => none
  rhythmFallback := fun _ => none

/-- Essentia oracle whose feature calls all throw. -/
def noneE : Essentia where
  arrayToVectorOk := fun _ => true
  spectrum := fun _ => []
  chromagram := fun _ => none
  mfccPipeline := fun _ => none
  rms := fun _ => none
  rhythm2013 := fun _ => none
  rhythmFallback := fun _ => none

/-- Essentia oracle whose `arrayToVector` throws. -/
def failE : Essentia where
  arrayToVectorOk := fun _ => false
  spectrum := fun _ => []
  chromagram := fun _ => none
  mfccPipeline := fun _ => none
  rms := fun _ => none
  rhythm2013 := fun _ => some (130, 1)
  rhythmFallback := fun _ => none

/-- Hann-table oracle that is constantly 1. -/
def hannOne : ℕ → ℕ → ℚ := fun _ _ => 1

/-- Square-root oracle that is constantly 0. -/
def sqrtZero : ℚ → ℚ := fun _ => 0

/-- A `hopSize`-long block holding the value `v` at its head. -/
def blk (v : ℚ) : List ℚ := v :: List.replicate 511 0

/-- 4096 samples whose frame-start values (read by `sampleReadE` through
the all-ones window) are `0, 10, 10, 20, 20`, so the spectral flux is
`[0, 10, 0, 10, 0]` with strict local maxima at frames 1 and 3. -/
def c1data : List ℚ :=
  blk 0 ++ (blk 10 ++ (blk 10 ++ (blk 20 ++ (20 :: List.replicate 2047 0))))

def c1buf : AudioBuffer := { channels := [c1data], sampleRate := 44100, length := 4096 }

/-- 5120 samples whose frame-start values are
`0, 2, 3, 22/5, 27/5, 37/5, 37/5`, so the spectral flux is
`[0, 2, 1, 7/5, 1, 2, 0]`: median 1, MAD 1, adaptive threshold
`1 + sensitivity`. -/
def c2data : List ℚ :=
  blk 0 ++ (blk 2 ++ (blk 3 ++ (blk (22 / 5) ++ (blk (27 / 5) ++
    (blk (37 / 5) ++ ((37 / 5) :: List.replicate 2047 0))))))

def c2buf : AudioBuffer := { channels := [c2data], sampleRate := 44100, length := 5120 }

/-- A silent 2560-sample mono buffer at 44100 Hz: exactly one structure
frame is processed, so the final boundary frame is `numFrames - 1 = 0`. -/
def c3buf : AudioBuffer :=
  { channels := [List.replicate 2560 0], sampleRate := 44100, length := 2560 }

/-- An all-zero 11-entry similarity row. -/
def zrow : List ℚ := [0, 0, 0, 0, 0, 0, 0, 0, 0, 0, 0]

/-- An 11-frame similarity matrix whose checkerboard novelty (with
`sampleRate = hopSize`, hence `kernelSize = 3`) is `[0, 0, 0, 1, 0]`:
a single candidate boundary at frame 6, giving candidates `[0, 6, 10]`
whose smallest adjacent gap is the final one. -/
def c4sim : List (List ℚ) :=
  [zrow, zrow, zrow, zrow, zrow, zrow, zrow, zrow, zrow,
   [0, 0, 0, 0, 0, 0, 0, 0, 0, 1, 0], [0, 0, 0, 0, 1, 0, 0, 0, 0, 0, 0]]

/-- Energy profile for the labelling counterexample: 1 on frames 0-4,
0 on frames 5-9, 1 on frames 10-14. -/
def c9profile : List ℚ := [1, 1, 1, 1, 1, 0, 0, 0, 0, 0, 1, 1, 1, 1, 1]

/-- First section of the labelling counterexample: frames `[0, 10)` at
44100 Hz (times `frame * hopSize / sampleRate`). -/
def c9A : SectionBoundary :=
  { startSample := 0, endSample := 5120, startTime := 0,
    endTime := 5120 / 44100, label := "", confidence := 0 }

/-- Second section of the labelling counterexample: frames `[10, 15)`. -/
def c9B : SectionBoundary :=
  { startSample := 5120, endSample := 7680, startTime := 5120 / 44100,
    endTime := 7680 / 44100, label := "", confidence := 0 }

def c9bounds : List SectionBoundary := [c9A, c9B]

def c9dur : ℚ := 7680 / 44100

/-- A tiny 3-sample buffer (shorter than one frame). -/
def tinyBuf : AudioBuffer := { channels := [[0, 0, 0]], sampleRate := 44100, length := 3 }

/-! Helper lemmas. -/

theorem onsetFrameStarts_nil {N : ℕ} (h : N < frameSize) : onsetFrameStarts N = [] := by
  simp [onsetFrameStarts, if_pos h]

theorem onsetFrameStarts_length {N : ℕ} (h : frameSize ≤ N) :
    (onsetFrameStarts N).length = (N - frameSize) / hopSize + 1 := by
  simp [onsetFrameStarts, Nat.not_lt.mpr h]

theorem structureFrameStarts_length {N : ℕ} (h : frameSize ≤ N) :
    (structureFrameStarts N).length = (N - frameSize) / hopSize := by
  have hcast : ((N : ℚ) - (frameSize : ℚ)) = ((N - frameSize : ℕ) : ℚ) := by
    rw [Nat.cast_sub h]
  simp only [structureFrameStarts, structureNumFrames, List.length_map, List.length_range, hcast]
  rw [Int.floor_toNat]
  exact Nat.floor_div_eq_div _ _

theorem dot_comm {K : Type} [Field K] (a b : List K) :
    ((a.zip b).map fun p => p.1 * p.2).sum = ((b.zip a).map fun p => p.1 * p.2).sum := by
  induction a generalizing b with
  | nil => cases b <;> simp
  | cons x xs ih =>
    cases b with
    | nil => simp
    | cons y ys => simp [ih ys, mul_comm]

theorem dot_self {K : Type} [Field K] (a : List K) :
    ((a.zip a).map fun p => p.1 * p.2).sum = (a.map fun x => x * x).sum := by
  induction a with
  | nil => simp
  | cons x xs ih => simp [ih]

theorem sumsq_nonneg (a : List ℝ) : 0 ≤ (a.map fun x => x * x).sum := by
  induction a with
  | nil => simp
  | cons x xs ih => simpa using add_nonneg (mul_self_nonneg x) ih

theorem cosineSimilarity_nil_left {K : Type} [Field K] [DecidableEq K]
    (sq : K → K) (l : List K) : cosineSimilarity sq [] l = 0 := by
  unfold cosineSimilarity
  cases l with
  | nil => simp
  | cons x xs =>
    rw [if_pos]
    simp

theorem cosineSimilarity_comm {K : Type} [Field K] [DecidableEq K]
    (sq : K → K) (a b : List K) :
    cosineSimilarity sq a b = cosineSimilarity sq b a := by
  simp only [cosineSimilarity]
  by_cases h : a.length = b.length
  · rw [if_neg (show ¬a.length ≠ b.length from by simp [h]),
      if_neg (show ¬b.length ≠ a.length from by simp [h]),
      dot_comm, mul_comm (sq ((a.map fun x => x * x).sum))]
  · rw [if_pos (show a.length ≠ b.length from h),
      if_pos (show b.length ≠ a.length from fun e => h e.symm)]

theorem cosineSimilarity_self (a : List ℝ) :
    cosineSimilarity Real.sqrt a a =
      if (a.map fun x => x * x).sum = 0 then 0 else 1 := by
  unfold cosineSimilarity
  rw [if_neg (by simp)]
  simp only [dot_self]
  have hs : (0 : ℝ) ≤ (a.map fun x => x * x).sum := sumsq_nonneg a
  rw [Real.mul_self_sqrt hs]
  by_cases h : (a.map fun x => x * x).sum = 0
  · simp [h]
  · rw [if_neg h, if_neg h, div_self h]

theorem simMatrix_getD {K : Type} [Field K] [DecidableEq K]
    (sq : K → K) (features : List (List K)) (i j : ℕ) :
    ((buildSimilarityMatrix sq features).getD i []).getD j 0 =
      cosineSimilarity sq (features.getD i []) (features.getD j []) := by
  by_cases hi : i < features.length
  · have hi' : i < (buildSimilarityMatrix sq features).length := by
      simpa [buildSimilarityMatrix] using hi
    have e0 : (buildSimilarityMatrix sq features).getD i [] =
        features.map fun fj => cosineSimilarity sq features[i] fj := by
      rw [List.getD_eq_getElem _ _ hi']
      simp [buildSimilarityMatrix]
    have e2 : features.getD i [] = features[i] := List.getD_eq_getElem _ _ hi
    rw [e0, e2]
    by_cases hj : j < features.length
    · have e5 : (features.map fun fj => cosineSimilarity sq features[i] fj).getD j 0 =
          cosineSimilarity sq features[i] features[j] := by
        rw [List.getD_eq_getElem _ _ (by simpa using hj)]
        simp
      have e6 : features.getD j [] = features[j] := List.getD_eq_getElem _ _ hj
      rw [e5, e6]
    · have e3 : features.getD j [] = [] := List.getD_eq_default _ _ (Nat.le_of_not_lt hj)
      have e4 : (features.map fun fj => cosineSimilarity sq features[i] fj).getD j 0 = 0 :=
        List.getD_eq_default _ _ (by simpa using Nat.le_of_not_lt hj)
      rw [e4, e3, cosineSimilarity_comm, cosineSimilarity_nil_left]
  · have e1 : (buildSimilarityMatrix sq features).getD i [] = [] :=
      List.getD_eq_default _ _ (by simpa [buildSimilarityMatrix] using Nat.le_of_not_lt hi)
    have e2 : features.getD i [] = [] := List.getD_eq_default _ _ (Nat.le_of_not_lt hi)
    rw [e1, e2, cosineSimilarity_nil_left, List.getD_nil]

/-- Invariant of the peak-picking loop: the accepted frame indices are at
least the current index, strictly increasing with adjacent (and
last-onset) gaps of at least `mdf` frames. -/
theorem pickPeaksAux_invariant (thr : ℚ) (mdf : ℤ) :
    ∀ (rest : List ℚ) (prev : ℚ) (i : ℕ) (last : Option ℕ),
      (∀ l, last = some l → l < i) →
      List.Chain' (fun a c : ℕ => a < c ∧ (a : ℤ) + mdf ≤ (c : ℤ))
          (pickPeaksAux thr mdf prev rest i last) ∧
        (∀ j ∈ pickPeaksAux thr mdf prev rest i last, i ≤ j) ∧
        (∀ l, last = some l → ∀ j ∈ pickPeaksAux thr mdf prev rest i last,
          l < j ∧ (l : ℤ) + mdf ≤ (j : ℤ)) := by
  intro rest
  induction rest with
  | nil => intro prev i last _; simp [pickPeaksAux]
  | cons x xs ih =>
    intro prev i last hlast
    cases xs with
    | nil => simp [pickPeaksAux]
    | cons y tail =>
      by_cases hc : thr < x ∧ prev < x ∧ y < x ∧ minDistOk last i mdf
      · rw [pickPeaksAux, if_pos hc]
        have hstep := ih x (i + 1) (some i) (by rintro l ⟨rfl⟩; omega)
        obtain ⟨hchain, hmem, hlastS⟩ := hstep
        have hheadrel : ∀ j ∈ pickPeaksAux thr mdf x (y :: tail) (i + 1) (some i),
            i < j ∧ (i : ℤ) + mdf ≤ (j : ℤ) := hlastS i rfl
        refine ⟨?_, ?_, ?_⟩
        · rw [List.chain'_cons']
          exact ⟨fun c hc' => hheadrel c (List.mem_of_mem_head? hc'), hchain⟩
        · intro j hj
          rcases List.mem_cons.mp hj with rfl | hj
          · exact Nat.le_refl _
          · exact Nat.le_of_succ_le (hmem j hj)
        · intro l hl j hj
          have hli : l < i := hlast l hl
          have hgate : mdf ≤ (i : ℤ) - (l : ℤ) := by
            have := hc.2.2.2
            rw [hl] at this
            exact this
          rcases List.mem_cons.mp hj with rfl | hj
          · exact ⟨hli, by omega⟩
          · have h1 := hheadrel j hj
            have h2 : (i : ℤ) ≤ (j : ℤ) := by exact_mod_cast Nat.le_of_lt h1.1
            exact ⟨Nat.lt_trans hli h1.1, by omega⟩
      · rw [pickPeaksAux, if_neg hc]
        have hstep := ih x (i + 1) last (fun l hl => Nat.lt_succ_of_lt (hlast l hl))
        obtain ⟨hchain, hmem, hlastS⟩ := hstep
        exact ⟨hchain, fun j hj => Nat.le_of_succ_le (hmem j hj), hlastS⟩

/-- The accepted peaks of `pickPeaks` are strictly increasing with
adjacent gaps of at least `mdf` frames. -/
theorem pickPeaks_chain (flux : List ℚ) (thr : ℚ) (mdf : ℤ) :
    List.Chain' (fun a c : ℕ => a < c ∧ (a : ℤ) + mdf ≤ (c : ℤ))
      (pickPeaks flux thr mdf) := by
  cases flux with
  | nil => simp [pickPeaks]
  | cons f0 rest =>
    exact (pickPeaksAux_invariant thr mdf rest f0 1 none (by simp)).1

theorem drop_blk (v : ℚ) (l : List ℚ) : (blk v ++ l).drop 512 = l := by
  have h : (blk v).length = 512 := by
    rw [blk, List.length_cons, List.length_replicate]
  rw [← h, List.drop_left]

theorem windowedFrame_head (mono : List ℚ) (s : ℕ) (v : ℚ) (rest : List ℚ)
    (h : mono.drop s = v :: rest) :
    (windowedFrame hannOne mono s).getD 0 0 = v := by
  unfold windowedFrame
  rw [h, show (frameSize : ℕ) = 2047 + 1 from rfl, List.take_succ_cons,
    List.range_succ_eq_map, List.map_cons, List.zipWith_cons_cons, List.getD_cons_zero]
  simp [hannOne]

theorem c1_mono : audioBufferToMono c1buf = c1data := rfl

theorem c1_drop0 : c1data.drop 0 = 0 :: (List.replicate 511 0 ++
    (blk 10 ++ (blk 10 ++ (blk 20 ++ (20 :: List.replicate 2047 0))))) := by
  rw [List.drop_zero, c1data, blk, List.cons_append]

theorem c1_drop512 : c1data.drop 512 =
    blk 10 ++ (blk 10 ++ (blk 20 ++ (20 :: List.replicate 2047 0))) := by
  rw [c1data, drop_blk]

theorem c1_drop1024 : c1data.drop 1024 =
    blk 10 ++ (blk 20 ++ (20 :: List.replicate 2047 0)) := by
  have h : c1data.drop 1024 = (c1data.drop 512).drop 512 := by
    rw [List.drop_drop]
  rw [h, c1_drop512, drop_blk]

theorem c1_drop1536 : c1data.drop 1536 = blk 20 ++ (20 :: List.replicate 2047 0) := by
  have h : c1data.drop 1536 = (c1data.drop 1024).drop 512 := by
    rw [List.drop_drop]
  rw [h, c1_drop1024, drop_blk]

theorem c1_drop2048 : c1data.drop 2048 = 20 :: List.replicate 2047 0 := by
  have h : c1data.drop 2048 = (c1data.drop 1536).drop 512 := by
    rw [List.drop_drop]
  rw [h, c1_drop1536, drop_blk]

theorem c1_flux :
    onsetFlux sampleReadE hannOne (audioBufferToMono c1buf) c1buf.length =
      [0, 10, 0, 10, 0] := by
  have hstarts : onsetFrameStarts c1buf.length = [0, 512, 1024, 1536, 2048] := by decide
  have m0 := windowedFrame_head c1data 0 0 _ (by rw [c1_drop0])
  have m1 := windowedFrame_head c1data 512 10 _ (by rw [c1_drop512, blk, List.cons_append])
  have m2 := windowedFrame_head c1data 1024 10 _ (by rw [c1_drop1024, blk, List.cons_append])
  have m3 := windowedFrame_head c1data 1536 20 _ (by rw [c1_drop1536, blk, List.cons_append])
  have m4 := windowedFrame_head c1data 2048 20 _ (by rw [c1_drop2048])
  unfold onsetFlux
  rw [c1_mono, hstarts, List.map_cons, List.map_cons, List.map_cons, List.map_cons,
    List.map_cons, List.map_nil]
  show fluxOfSpectra none
    [[|(windowedFrame hannOne c1data 0).getD 0 0|],
     [|(windowedFrame hannOne c1data 512).getD 0 0|],
     [|(windowedFrame hannOne c1data 1024).getD 0 0|],
     [|(windowedFrame hannOne c1data 1536).getD 0 0|],
     [|(windowedFrame hannOne c1data 2048).getD 0 0|]] = [0, 10, 0, 10, 0]
  rw [m0, m1, m2, m3, m4]
  norm_num [fluxOfSpectra, max_def]

theorem c1_eval :
    detectOnsets sampleReadE hannOne c1buf (1 / 2) (1 / 40) =
      { timestamps := [512, 1536], times := [512 / 44100, 1536 / 44100] } := by
  have hthr : calculateThreshold [0, 10, 0, 10, 0] (1 / 2) = 0 := by
    norm_num [calculateThreshold, sortAsc, insertAsc]
  have hmdf : ⌊(1 / 40 : ℚ) * c1buf.sampleRate / (hopSize : ℚ)⌋ = 2 := by
    rw [show c1buf.sampleRate = 44100 from rfl, show ((hopSize : ℕ) : ℚ) = 512 from rfl,
      Int.floor_eq_iff]
    norm_num
  have hpick : pickPeaks [0, 10, 0, 10, 0] 0 2 = [1, 3] := by
    norm_num [pickPeaks, pickPeaksAux, minDistOk]
  have f1 : ⌊((1 * hopSize : ℕ) : ℚ) / c1buf.sampleRate * c1buf.sampleRate⌋ = (512 : ℤ) := by
    rw [show ((1 * hopSize : ℕ) : ℚ) / c1buf.sampleRate * c1buf.sampleRate = ((512 : ℤ) : ℚ) by
      norm_num [hopSize, c1buf]]
    exact Int.floor_intCast 512
  have f2 : ⌊((3 * hopSize : ℕ) : ℚ) / c1buf.sampleRate * c1buf.sampleRate⌋ = (1536 : ℤ) := by
    rw [show ((3 * hopSize : ℕ) : ℚ) / c1buf.sampleRate * c1buf.sampleRate = ((1536 : ℤ) : ℚ) by
      norm_num [hopSize, c1buf]]
    exact Int.floor_intCast 1536
  have e1 : ((1 * hopSize : ℕ) : ℚ) / c1buf.sampleRate = 512 / 44100 := by
    norm_num [hopSize, c1buf]
  have e2 : ((3 * hopSize : ℕ) : ℚ) / c1buf.sampleRate = 1536 / 44100 := by
    norm_num [hopSize, c1buf]
  simp only [detectOnsets]
  rw [c1_flux, hthr, hmdf, hpick]
  simp only [List.map_cons, List.map_nil]
  rw [f1, f2, e1, e2]

theorem c2_mono : audioBufferToMono c2buf = c2data := rfl

theorem c2_drop512 : c2data.drop 512 =
    blk 2 ++ (blk 3 ++ (blk (22 / 5) ++ (blk (27 / 5) ++
      (blk (37 / 5) ++ ((37 / 5) :: List.replicate 2047 0))))) := by
  rw [c2data, drop_blk]

theorem c2_drop1024 : c2data.drop 1024 =
    blk 3 ++ (blk (22 / 5) ++ (blk (27 / 5) ++
      (blk (37 / 5) ++ ((37 / 5) :: List.replicate 2047 0)))) := by
  have h : c2data.drop 1024 = (c2data.drop 512).drop 512 := by rw [List.drop_drop]
  rw [h, c2_drop512, drop_blk]

theorem c2_drop1536 : c2data.drop 1536 =
    blk (22 / 5) ++ (blk (27 / 5) ++ (blk (37 / 5) ++ ((37 / 5) :: List.replicate 2047 0))) := by
  have h : c2data.drop 1536 = (c2data.drop 1024).drop 512 := by rw [List.drop_drop]
  rw [h, c2_drop1024, drop_blk]

theorem c2_drop2048 : c2data.drop 2048 =
    blk (27 / 5) ++ (blk (37 / 5) ++ ((37 / 5) :: List.replicate 2047 0)) := by
  have h : c2data.drop 2048 = (c2data.drop 1536).drop 512 := by rw [List.drop_drop]
  rw [h, c2_drop1536, drop_blk]

theorem c2_drop2560 : c2data.drop 2560 =
    blk (37 / 5) ++ ((37 / 5) :: List.replicate 2047 0) := by
  have h : c2data.drop 2560 = (c2data.drop 2048).drop 512 := by rw [List.drop_drop]
  rw [h, c2_drop2048, drop_blk]

theorem c2_drop3072 : c2data.drop 3072 = (37 / 5) :: List.replicate 2047 0 := by
  have h : c2data.drop 3072 = (c2data.drop 2560).drop 512 := by rw [List.drop_drop]
  rw [h, c2_drop2560, drop_blk]

theorem c2_flux :
    onsetFlux sampleReadE hannOne (audioBufferToMono c2buf) c2buf.length =
      [0, 2, 1, 7 / 5, 1, 2, 0] := by
  have hstarts : onsetFrameStarts c2buf.length = [0, 512, 1024, 1536, 2048, 2560, 3072] := by
    decide
  have m0 := windowedFrame_head c2data 0 0 _
    (by rw [List.drop_zero, c2data, blk, List.cons_append])
  have m1 := windowedFrame_head c2data 512 2 _ (by rw [c2_drop512, blk, List.cons_append])
  have m2 := windowedFrame_head c2data 1024 3 _ (by rw [c2_drop1024, blk, List.cons_append])
  have m3 := windowedFrame_head c2data 1536 (22 / 5) _
    (by rw [c2_drop1536, blk, List.cons_append])
  have m4 := windowedFrame_head c2data 2048 (27 / 5) _
    (by rw [c2_drop2048, blk, List.cons_append])
  have m5 := windowedFrame_head c2data 2560 (37 / 5) _
    (by rw [c2_drop2560, blk, List.cons_append])
  have m6 := windowedFrame_head c2data 3072 (37 / 5) _ (by rw [c2_drop3072])
  unfold onsetFlux
  rw [c2_mono, hstarts, List.map_cons, List.map_cons, List.map_cons, List.map_cons,
    List.map_cons, List.map_cons, List.map_cons, List.map_nil]
  show fluxOfSpectra none
    [[|(windowedFrame hannOne c2data 0).getD 0 0|],
     [|(windowedFrame hannOne c2data 512).getD 0 0|],
     [|(windowedFrame hannOne c2data 1024).getD 0 0|],
     [|(windowedFrame hannOne c2data 1536).getD 0 0|],
     [|(windowedFrame hannOne c2data 2048).getD 0 0|],
     [|(windowedFrame hannOne c2data 2560).getD 0 0|],
     [|(windowedFrame hannOne c2data 3072).getD 0 0|]] = [0, 2, 1, 7 / 5, 1, 2, 0]
  rw [m0, m1, m2, m3, m4, m5, m6]
  norm_num [fluxOfSpectra, max_def, abs_of_nonneg]

theorem structureLoopTrace_le (N : ℕ) : ∀ x ∈ structureLoopTrace N, x ≤ 3 / 5 := by
  intro x hx
  unfold structureLoopTrace at hx
  rcases List.mem_map.mp hx with ⟨i, hi, rfl⟩
  have hilt : i < (structureNumFrames N).toNat :=
    List.mem_range.mp (List.mem_of_mem_filter hi)
  have hnum : 0 < (structureNumFrames N).toNat := Nat.lt_of_le_of_lt (Nat.zero_le i) hilt
  have h1 : (i : ℚ) / ((structureNumFrames N).toNat : ℚ) ≤ 1 := by
    rw [div_le_one (by exact_mod_cast hnum)]
    exact_mod_cast Nat.le_of_lt hilt
  calc 3 / 5 * ((i : ℚ) / ((structureNumFrames N).toNat : ℚ)) ≤ 3 / 5 * 1 :=
        mul_le_mul_of_nonneg_left h1 (by norm_num)
    _ = 3 / 5 := by norm_num

theorem structureLoopTrace_pairwise (N : ℕ) :
    List.Pairwise (· ≤ ·) (structureLoopTrace N) := by
  unfold structureLoopTrace
  have hp : ((List.range (structureNumFrames N).toNat).filter
      fun i => decide (0 < i) && decide (i % 5 = 0)).Pairwise (· < ·) :=
    (List.pairwise_lt_range _).sublist (List.filter_sublist _)
  refine hp.map _ ?_
  intro a c hac
  by_cases hz : ((structureNumFrames N).toNat : ℚ) = 0
  · simp [hz]
  · have hpos : (0 : ℚ) < ((structureNumFrames N).toNat : ℚ) :=
      lt_of_le_of_ne (by positivity) (Ne.symm hz)
    have hle : (a : ℚ) ≤ (c : ℚ) := by exact_mod_cast Nat.le_of_lt hac
    exact mul_le_mul_of_nonneg_left ((div_le_div_iff_of_pos_right hpos).mpr hle)
      (by norm_num)

theorem structureTrace_chain (N : ℕ) : List.Chain' (· ≤ ·) (structureTrace N) := by
  apply List.Pairwise.chain'
  unfold structureTrace
  rw [List.pairwise_append]
  refine ⟨structureLoopTrace_pairwise N, by norm_num [List.pairwise_cons], ?_⟩
  intro a ha c hc
  have h1 : a ≤ 3 / 5 := structureLoopTrace_le N a ha
  have h2 : (3 : ℚ) / 5 ≤ c := by
    simp only [List.mem_cons, List.not_mem_nil, or_false] at hc
    rcases hc with rfl | rfl | rfl | rfl | rfl <;> norm_num
  linarith

theorem structureTrace_getLast (N : ℕ) : (structureTrace N).getLast? = some 1 := by
  unfold structureTrace
  rw [show [3 / 5, 4 / 5, 9 / 10, 19 / 20, (1 : ℚ)] =
      [3 / 5, 4 / 5, 9 / 10, 19 / 20] ++ [(1 : ℚ)] from rfl,
    ← List.append_assoc]
  exact List.getLast?_concat _

theorem minGapGo_bounds : ∀ (rest : List ℤ) (prevElem bestD bestI : ℤ) (i : ℕ),
    0 ≤ bestI → bestI < (i : ℤ) →
    0 ≤ minGapGo rest prevElem bestD bestI i ∧
      minGapGo rest prevElem bestD bestI i < (i : ℤ) + rest.length := by
  intro rest
  induction rest with
  | nil =>
    intro p d bI i h0 hi
    rw [minGapGo]
    exact ⟨h0, by simpa using hi⟩
  | cons z r ih =>
    intro p d bI i h0 hi
    rw [minGapGo]
    by_cases hc : z - p < d
    · rw [if_pos hc]
      have hrec := ih z (z - p) (i : ℤ) (i + 1) (Int.natCast_nonneg i)
        (by exact_mod_cast Nat.lt_succ_self i)
      refine ⟨hrec.1, ?_⟩
      have h2 := hrec.2
      push_cast [List.length_cons] at h2 ⊢
      linarith
    · rw [if_neg hc]
      have hrec := ih p d bI (i + 1) h0 (by push_cast; linarith)
      refine ⟨hrec.1, ?_⟩
      have h2 := hrec.2
      push_cast [List.length_cons] at h2 ⊢
      linarith

theorem minGapIndex_bounds (bs : List ℤ) (h : 2 ≤ bs.length) :
    0 ≤ minGapIndex bs ∧ minGapIndex bs ≤ (bs.length : ℤ) - 2 := by
  match bs with
  | x :: y :: rest =>
    rw [minGapIndex]
    have hb := minGapGo_bounds rest y (y - x) 0 1 le_rfl (by norm_num)
    refine ⟨hb.1, ?_⟩
    have h2 := hb.2
    have hlen : ((x :: y :: rest).length : ℤ) = (rest.length : ℤ) + 2 := by
      push_cast [List.length_cons]
      ring
    rw [hlen]
    push_cast at h2
    linarith
  | [] => simp at h
  | [x] => simp at h

theorem mergeGo_length (maxSections : ℕ) :
    ∀ (fuel : ℕ) (bs : List ℤ), bs.length ≤ fuel + (maxSections + 1) →
      (mergeGo maxSections fuel bs).length ≤ maxSections + 1 := by
  intro fuel
  induction fuel with
  | zero =>
    intro bs hb
    rw [mergeGo]
    simpa using hb
  | succ f ih =>
    intro bs hb
    rw [mergeGo]
    by_cases hc : maxSections + 1 < bs.length
    · rw [if_pos hc]
      have hlen2 : 2 ≤ bs.length := by omega
      have hmgi := minGapIndex_bounds bs hlen2
      rw [if_pos hmgi.1]
      have hidx : (minGapIndex bs + 1).toNat < bs.length := by
        have h2 := hmgi.2
        omega
      have herase : (bs.eraseIdx (minGapIndex bs + 1).toNat).length = bs.length - 1 :=
        List.length_eraseIdx_of_lt hidx
      exact ih _ (by omega)
    · rw [if_neg hc]
      omega

theorem mergeBoundaries_length (bs : List ℤ) (maxSections : ℕ) :
    (mergeBoundaries bs maxSections).length ≤ maxSections + 1 :=
  mergeGo_length maxSections bs.length bs (by omega)

theorem adjacentSections_length (sr : ℚ) (hop : ℕ) :
    ∀ bs : List ℤ, (adjacentSections sr hop bs).length = bs.length - 1 := by
  intro bs
  induction bs with
  | nil => rfl
  | cons x rest ih =>
    cases rest with
    | nil => rfl
    | cons y r =>
      rw [adjacentSections]
      simp only [List.length_cons]
      rw [ih]
      simp

theorem labelGo_length (total : ℕ) (norms : List ℚ) (dur : ℚ) :
    ∀ (i : ℕ) (rest : List SectionBoundary),
      (labelGo total norms dur i rest).length = rest.length := by
  intro i rest
  induction rest generalizing i with
  | nil => rfl
  | cons c r ih =>
    rw [labelGo]
    simp only [List.length_cons]
    rw [ih]

theorem labelSections_length (bs : List SectionBoundary) (p : List ℚ) (dur : ℚ) :
    (labelSections bs p dur).length = bs.length := by
  unfold labelSections
  by_cases h : bs = []
  · rw [if_pos h]
  · rw [if_neg h]
    exact labelGo_length _ _ _ _ _

theorem detectBoundariesFrames_length (sim : List (List ℚ)) (sr : ℚ) (hop : ℕ)
    (dur : ℚ) (maxSections : ℕ) (minSec : ℚ) :
    (detectBoundariesFrames sim sr hop dur maxSections minSec).length ≤ maxSections + 1 := by
  unfold detectBoundariesFrames
  exact mergeBoundaries_length _ _

theorem detectBoundaries_length (sim : List (List ℚ)) (sr : ℚ) (hop : ℕ)
    (dur : ℚ) (maxSections : ℕ) (minSec : ℚ) :
    (detectBoundaries sim sr hop dur maxSections minSec).length ≤ maxSections := by
  unfold detectBoundaries
  rw [adjacentSections_length]
  have h := detectBoundariesFrames_length sim sr hop dur maxSections minSec
  omega

set_option maxHeartbeats 1600000 in
theorem detectSongStructure_boundaries (E : Essentia) (sqrtF : ℚ → ℚ) (b : AudioBuffer)
    (maxSections : ℕ) (minSectionDuration : ℚ) :
    (detectSongStructure E sqrtF b maxSections minSectionDuration).1.boundaries =
      labelSections
        (detectBoundaries (buildSimilarityMatrix sqrtF ((structureFeats E sqrtF b).map
          fun f => f.1)) b.sampleRate hopSize b.duration maxSections minSectionDuration)
        ((structureFeats E sqrtF b).map fun f => f.2.2) b.duration := rfl

theorem toNatLits : Int.toNat (0 : ℤ) = 0 ∧ Int.toNat (1 : ℤ) = 1 ∧ Int.toNat (2 : ℤ) = 2 ∧
    Int.toNat (3 : ℤ) = 3 ∧ Int.toNat (4 : ℤ) = 4 ∧ Int.toNat (5 : ℤ) = 5 ∧
    Int.toNat (6 : ℤ) = 6 ∧ Int.toNat (7 : ℤ) = 7 ∧ Int.toNat (8 : ℤ) = 8 ∧
    Int.toNat (9 : ℤ) = 9 ∧ Int.toNat (10 : ℤ) = 10 := by
  decide

set_option maxHeartbeats 800000 in
theorem c4nov3 : noveltyAt c4sim 3 3 = 0 := by
  have h : intRange (-3) 4 = [-3, -2, -1, 0, 1, 2, 3] := by decide
  norm_num [noveltyAt, h, simGet, c4sim, zrow, toNatLits.1, toNatLits.2.1, toNatLits.2.2.1,
    toNatLits.2.2.2.1, toNatLits.2.2.2.2.1, toNatLits.2.2.2.2.2.1, toNatLits.2.2.2.2.2.2.1,
    toNatLits.2.2.2.2.2.2.2.1, toNatLits.2.2.2.2.2.2.2.2.1, toNatLits.2.2.2.2.2.2.2.2.2.1,
    toNatLits.2.2.2.2.2.2.2.2.2.2]

set_option maxHeartbeats 800000 in
theorem c4nov4 : noveltyAt c4sim 3 4 = 0 := by
  have h : intRange (-3) 4 = [-3, -2, -1, 0, 1, 2, 3] := by decide
  norm_num [noveltyAt, h, simGet, c4sim, zrow, toNatLits.1, toNatLits.2.1, toNatLits.2.2.1,
    toNatLits.2.2.2.1, toNatLits.2.2.2.2.1, toNatLits.2.2.2.2.2.1, toNatLits.2.2.2.2.2.2.1,
    toNatLits.2.2.2.2.2.2.2.1, toNatLits.2.2.2.2.2.2.2.2.1, toNatLits.2.2.2.2.2.2.2.2.2.1,
    toNatLits.2.2.2.2.2.2.2.2.2.2]

set_option maxHeartbeats 800000 in
theorem c4nov5 : noveltyAt c4sim 3 5 = 0 := by
  have h : intRange (-3) 4 = [-3, -2, -1, 0, 1, 2, 3] := by decide
  norm_num [noveltyAt, h, simGet, c4sim, zrow, toNatLits.1, toNatLits.2.1, toNatLits.2.2.1,
    toNatLits.2.2.2.1, toNatLits.2.2.2.2.1, toNatLits.2.2.2.2.2.1, toNatLits.2.2.2.2.2.2.1,
    toNatLits.2.2.2.2.2.2.2.1, toNatLits.2.2.2.2.2.2.2.2.1, toNatLits.2.2.2.2.2.2.2.2.2.1,
    toNatLits.2.2.2.2.2.2.2.2.2.2]

set_option maxHeartbeats 800000 in
theorem c4nov6 : noveltyAt c4sim 3 6 = 1 := by
  have h : intRange (-3) 4 = [-3, -2, -1, 0, 1, 2, 3] := by decide
  norm_num [noveltyAt, h, simGet, c4sim, zrow, toNatLits.1, toNatLits.2.1, toNatLits.2.2.1,
    toNatLits.2.2.2.1, toNatLits.2.2.2.2.1, toNatLits.2.2.2.2.2.1, toNatLits.2.2.2.2.2.2.1,
    toNatLits.2.2.2.2.2.2.2.1, toNatLits.2.2.2.2.2.2.2.2.1, toNatLits.2.2.2.2.2.2.2.2.2.1,
    toNatLits.2.2.2.2.2.2.2.2.2.2]

set_option maxHeartbeats 800000 in
theorem c4nov7 : noveltyAt c4sim 3 7 = 0 := by
  have h : intRange (-3) 4 = [-3, -2, -1, 0, 1, 2, 3] := by decide
  norm_num [noveltyAt, h, simGet, c4sim, zrow, toNatLits.1, toNatLits.2.1, toNatLits.2.2.1,
    toNatLits.2.2.2.1, toNatLits.2.2.2.2.1, toNatLits.2.2.2.2.2.1, toNatLits.2.2.2.2.2.2.1,
    toNatLits.2.2.2.2.2.2.2.1, toNatLits.2.2.2.2.2.2.2.2.1, toNatLits.2.2.2.2.2.2.2.2.2.1,
    toNatLits.2.2.2.2.2.2.2.2.2.2]

/-! Claim theorems. -/

/-- C10: for an initialized engine and any buffer shorter than one frame
(2048 samples), `detectOnsets` returns empty `timestamps` and `times`: no
frame is processed, the adaptive threshold of the empty flux list is 0,
and the peak picking accepts nothing. -/
theorem detectOnsets_short_buffer (E : Essentia) (hann : ℕ → ℕ → ℚ) (b : AudioBuffer)
    (sensitivity minDistance : ℚ) (h : b.length < frameSize) :
    onsetFrameStarts b.length = [] ∧
    calculateThreshold (onsetFlux E hann (audioBufferToMono b) b.length) sensitivity = 0 ∧
    detectOnsets E hann b sensitivity minDistance = { timestamps := [], times := [] } := by
  have h1 : onsetFrameStarts b.length = [] := onsetFrameStarts_nil h
  have h2 : onsetFlux E hann (audioBufferToMono b) b.length = [] := by
    simp [onsetFlux, h1, fluxOfSpectra]
  refine ⟨h1, ?_, ?_⟩
  · rw [h2]; rfl
  · simp [detectOnsets, h2, pickPeaks]

/-- C10 witness: a 3-sample buffer is below one frame and yields the empty
onset result. -/
theorem detectOnsets_short_buffer_witness :
    tinyBuf.length < frameSize ∧
    detectOnsets noneE hannOne tinyBuf (1 / 2) (1 / 20) = { timestamps := [], times := [] } :=
  ⟨by decide,
   (detectOnsets_short_buffer noneE hannOne tinyBuf (1 / 2) (1 / 20) (by decide)).2.2⟩

theorem head_eraseIdx_succ (l : List ℤ) (k : ℕ) :
    (l.eraseIdx (k + 1)).head? = l.head? := by
  cases l with
  | nil => rfl
  | cons x rest => rfl

theorem mergeGo_head (maxSections : ℕ) :
    ∀ (fuel : ℕ) (bs : List ℤ), (mergeGo maxSections fuel bs).head? = bs.head? := by
  intro fuel
  induction fuel with
  | zero => intro bs; rfl
  | succ n ih =>
    intro bs
    simp only [mergeGo]
    by_cases h1 : maxSections + 1 < bs.length
    · rw [if_pos h1]
      by_cases h2 : 0 ≤ minGapIndex bs
      · rw [if_pos h2]
        have hk : (minGapIndex bs + 1).toNat = (minGapIndex bs).toNat + 1 := by omega
        rw [ih, hk, head_eraseIdx_succ]
      · rw [if_neg h2]
    · rw [if_neg h1]

theorem mergeBoundaries_head (bs : List ℤ) (maxSections : ℕ) :
    (mergeBoundaries bs maxSections).head? = bs.head? :=
  mergeGo_head maxSections bs.length bs

theorem detectBoundariesFrames_head (sim : List (List ℚ)) (sr : ℚ) (hop : ℕ)
    (dur : ℚ) (maxSections : ℕ) (minSec : ℚ) :
    (detectBoundariesFrames sim sr hop dur maxSections minSec).head? = some 0 := by
  simp only [detectBoundariesFrames]
  rw [mergeBoundaries_head]
  rfl

theorem adjacentSections_chain (sr : ℚ) (hop : ℕ) (bs : List ℤ) :
    List.Chain' (fun a c => a.endSample = c.startSample) (adjacentSections sr hop bs) := by
  induction bs with
  | nil => exact List.chain'_nil
  | cons x rest ih =>
    cases rest with
    | nil => exact List.chain'_nil
    | cons y rest2 =>
      refine List.chain'_cons'.mpr ⟨?_, ih⟩
      intro z hz
      cases rest2 with
      | nil => exact absurd hz (by simp [adjacentSections])
      | cons w rest3 =>
        have hz2 : z = {
            startSample := ⌊((y * (hop : ℤ) : ℤ) : ℚ) / sr * sr⌋,
            endSample := ⌊((w * (hop : ℤ) : ℤ) : ℚ) / sr * sr⌋,
            startTime := ((y * (hop : ℤ) : ℤ) : ℚ) / sr,
            endTime := ((w * (hop : ℤ) : ℤ) : ℚ) / sr,
            label := "",
            confidence := 0 } := by
          simp only [adjacentSections, List.head?_cons, Option.mem_def,
            Option.some.injEq] at hz
          exact hz.symm
        rw [hz2]

theorem labelGo_samplePairs (total : ℕ) (norms : List ℚ) (dur : ℚ) :
    ∀ (bs : List SectionBoundary) (index : ℕ),
      (labelGo total norms dur index bs).map samplePair = bs.map samplePair := by
  intro bs
  induction bs with
  | nil => intro index; rfl
  | cons b rest ih =>
    intro index
    simp only [labelGo, List.map_cons, ih]
    rfl

theorem chain_of_samplePairs (l l2 : List SectionBoundary)
    (hm : l.map samplePair = l2.map samplePair)
    (h : List.Chain' (fun a c => a.endSample = c.startSample) l2) :
    List.Chain' (fun a c => a.endSample = c.startSample) l := by
  have h2 : List.Chain' (fun a c : ℤ × ℤ => a.2 = c.1) (l2.map samplePair) :=
    (List.chain'_map samplePair).mpr h
  rw [← hm] at h2
  exact (List.chain'_map samplePair).mp h2

theorem labelSections_chain (bs : List SectionBoundary) (p : List ℚ) (dur : ℚ)
    (h : List.Chain' (fun a c => a.endSample = c.startSample) bs) :
    List.Chain' (fun a c => a.endSample = c.startSample) (labelSections bs p dur) := by
  unfold labelSections
  by_cases hb : bs = []
  · rw [if_pos hb]; exact h
  · rw [if_neg hb]
    exact chain_of_samplePairs _ bs (labelGo_samplePairs _ _ _ bs 0) h

theorem labelSections_head_start (bs : List SectionBoundary) (p : List ℚ) (dur : ℚ) :
    ((labelSections bs p dur).head?.getD noSection).startSample =
      (bs.head?.getD noSection).startSample := by
  cases bs with
  | nil => rfl
  | cons b rest => rfl

theorem adjacentSections_head_start (sr : ℚ) (hop : ℕ) (bs : List ℤ)
    (h : bs.head? = some 0) :
    ((adjacentSections sr hop bs).head?.getD noSection).startSample = 0 := by
  cases bs with
  | nil => simp at h
  | cons x rest =>
    have hx : x = 0 := by simpa using h
    subst hx
    cases rest with
    | nil => rfl
    | cons y rest2 =>
      show (⌊(((0 : ℤ) * (hop : ℤ) : ℤ) : ℚ) / sr * sr⌋ : ℤ) = 0
      norm_num

/-- C3 (amended): the sections of every `detectSongStructure` result are
contiguous (`boundaries[i].endSample = boundaries[i+1].startSample`) and
the first section's `startSample` is 0; but the last section's `endSample`
is the final merged boundary frame times `hopSize` (at most
`(numFrames - 1) * hopSize`), which is NOT the buffer length — see the
counterexample. -/
theorem detectSongStructure_coverage (E : Essentia) (sqrtF : ℚ → ℚ) (b : AudioBuffer)
    (maxSections : ℕ) (minSectionDuration : ℚ) :
    (((detectSongStructure E sqrtF b maxSections minSectionDuration).1.boundaries.head?.getD
        noSection).startSample = 0) ∧
    List.Chain' (fun a c => a.endSample = c.startSample)
      (detectSongStructure E sqrtF b maxSections minSectionDuration).1.boundaries := by
  rw [detectSongStructure_boundaries]
  simp only [detectBoundaries]
  constructor
  · rw [labelSections_head_start]
    exact adjacentSections_head_start _ _ _ (detectBoundariesFrames_head _ _ _ _ _ _)
  · exact labelSections_chain _ _ _ (adjacentSections_chain _ _ _)

theorem c3_mono : audioBufferToMono c3buf = List.replicate 2560 0 := rfl

theorem c3_frame_feats :
    featuresOfFrame noneE sqrtZero (List.replicate 2048 (0 : ℚ)) =
      (List.replicate 12 (0 : ℚ), List.replicate 13 (0 : ℚ), (0 : ℚ)) := by
  simp [featuresOfFrame, noneE, sqrtZero]

theorem c3_starts : structureFrameStarts 2560 = [0] := by
  have h1 : structureNumFrames 2560 = 1 := by
    rw [structureNumFrames,
      show (((2560 : ℕ) : ℚ) - (frameSize : ℚ)) / (hopSize : ℚ) = ((1 : ℤ) : ℚ) by
        norm_num [frameSize, hopSize],
      Int.floor_intCast]
  rw [structureFrameStarts, h1]
  decide

theorem c3_feats : structureFeats noneE sqrtZero c3buf =
    [(List.replicate 12 (0 : ℚ), List.replicate 13 (0 : ℚ), (0 : ℚ))] := by
  have hlen : c3buf.length = 2560 := rfl
  simp only [structureFeats, hlen, c3_starts, List.map_cons, List.map_nil, c3_mono,
    List.drop_zero, Nat.sub_zero]
  rw [show min frameSize 2560 = 2048 by decide, List.take_replicate,
    show min 2048 2560 = 2048 by decide, c3_frame_feats]

theorem c3_sim : buildSimilarityMatrix sqrtZero [List.replicate 12 (0 : ℚ)] = [[0]] := by
  simp [buildSimilarityMatrix, cosineSimilarity, sqrtZero]

theorem c3_frames (dur : ℚ) : detectBoundariesFrames [[0]] 44100 512 dur 8 5 = [0, 0] := by
  have hn : ((([[(0 : ℚ)]] : List (List ℚ)).length : ℕ) : ℤ) = 1 := by decide
  have hker : ⌊3 * (44100 : ℚ) / ((512 : ℕ) : ℚ)⌋ = 258 := by
    rw [Int.floor_eq_iff]
    norm_num
  have hidx : intRange 258 (1 - 258) = [] := by decide
  simp only [detectBoundariesFrames, hn, hker, hidx, List.map_nil, List.nil_append]
  decide

theorem c3_sections : adjacentSections 44100 512 [0, 0] =
    [{ startSample := 0, endSample := 0, startTime := 0, endTime := 0,
       label := "", confidence := 0 }] := by
  simp only [adjacentSections]
  norm_num

/-- C3 counterexample: on a silent 2560-sample buffer exactly one
structure frame is processed, the final boundary frame is 0, and the last
(only) section's `endSample` is 0, not the buffer length 2560. -/
theorem detectSongStructure_last_end_cex :
    (((detectSongStructure noneE sqrtZero c3buf 8 5).1.boundaries.getLast?.getD
        noSection).endSample = 0) ∧ c3buf.length = 2560 ∧ (0 : ℤ) ≠ 2560 := by
  refine ⟨?_, rfl, by decide⟩
  rw [detectSongStructure_boundaries, c3_feats]
  simp only [List.map_cons, List.map_nil, c3_sim, detectBoundaries]
  have hsr : c3buf.sampleRate = 44100 := rfl
  have hhop : hopSize = 512 := rfl
  rw [hsr, hhop, c3_frames, c3_sections]
  rfl

/-- C4 (amended): every `detectSongStructure` result has at most
`maxSections` boundaries, and the merge loop repeatedly deletes the
boundary at the RIGHT end of the first shortest adjacent gap — which is
usually interior but, when the shortest gap is the final one, is the
forced final boundary itself (ties still go to the lowest index via the
strict `<` scan). -/
theorem detectSongStructure_budget :
    (∀ (E : Essentia) (sqrtF : ℚ → ℚ) (b : AudioBuffer) (maxSections : ℕ)
      (minSectionDuration : ℚ),
      (detectSongStructure E sqrtF b maxSections minSectionDuration).1.boundaries.length ≤
        maxSections) ∧
    (∀ (bs : List ℤ) (maxSections : ℕ),
      mergeBoundaries bs maxSections =
        if maxSections + 1 < bs.length ∧ 0 ≤ minGapIndex bs then
          mergeBoundaries (bs.eraseIdx (minGapIndex bs + 1).toNat) maxSections
        else bs) := by
  constructor
  · intro E sqrtF b maxSections minSectionDuration
    rw [detectSongStructure_boundaries, labelSections_length]
    exact detectBoundaries_length _ _ _ _ _ _
  · intro bs maxSections
    by_cases h1 : maxSections + 1 < bs.length
    · have hlen2 : 2 ≤ bs.length := by omega
      have hmgi := minGapIndex_bounds bs hlen2
      rw [if_pos ⟨h1, hmgi.1⟩]
      have hidx : (minGapIndex bs + 1).toNat < bs.length := by
        have h2 := hmgi.2
        omega
      obtain ⟨k, hk⟩ : ∃ k, bs.length = k + 1 := ⟨bs.length - 1, by omega⟩
      have herase : (bs.eraseIdx (minGapIndex bs + 1).toNat).length = k := by
        rw [List.length_eraseIdx_of_lt hidx, hk]
        omega
      unfold mergeBoundaries
      rw [hk, herase, mergeGo, if_pos h1, if_pos hmgi.1]
    · rw [if_neg (fun hh => h1 hh.1)]
      unfold mergeBoundaries
      cases he : bs.length with
      | zero => rw [mergeGo]
      | succ k => rw [mergeGo, if_neg h1]

/-- C4 counterexample: with similarity matrix `c4sim` (`sampleRate =
hopSize = 512`, so `kernelSize = 3`), the candidate boundaries are
`[0, 6, 10]` with final frame 10; the shortest adjacent gap is the final
one (10 - 6 = 4 < 6 - 0), so the merge deletes the FINAL boundary 10 —
not an interior one — leaving `[0, 6]`. -/
theorem detectBoundaries_budget_cex :
    detectBoundariesFrames c4sim 512 512 100 1 0 = mergeBoundaries [0, 6, 10] 1 ∧
    mergeBoundaries [0, 6, 10] 1 = [0, 6] ∧
    ((0 : ℤ) :: ([6] ++ [10])).getLast? = some 10 ∧
    (mergeBoundaries [0, 6, 10] 1).getLast? ≠ some 10 := by
  refine ⟨?_, by decide, by decide, by decide⟩
  have hn : ((c4sim.length : ℕ) : ℤ) = 11 := by decide
  have hker : ⌊3 * (512 : ℚ) / ((512 : ℕ) : ℚ)⌋ = 3 := by
    rw [show 3 * (512 : ℚ) / ((512 : ℕ) : ℚ) = ((3 : ℤ) : ℚ) by norm_num, Int.floor_intCast]
  have hidx : intRange 3 (11 - 3) = [3, 4, 5, 6, 7] := by decide
  simp only [detectBoundariesFrames, hn, hker, hidx]
  simp only [List.map_cons, List.map_nil, c4nov3, c4nov4, c4nov5, c4nov6, c4nov7]
  have hthr : calculateThreshold [0, 0, 0, 1, 0] (3 / 10) = 0 := by
    norm_num [calculateThreshold, sortAsc, insertAsc, abs_of_nonneg, abs_of_nonpos,
      List.cons_ne_nil]
  rw [hthr]
  have hacc : boundaryAux 0 3 512 512 100 0 0 [0, 0, 1, 0] 1 0 = [6] := by
    norm_num [boundaryAux]
  rw [hacc]
  norm_num

/-- C5: if `arrayToVector` throws on the sample data, `detectBPM` resolves
with `{bpm: 120, confidence: 0}`; and in every case the returned bpm is
the underlying estimate rounded with `Math.round`. -/
theorem detectBPM_fallback_round :
    (∀ (E : Essentia) (b : AudioBuffer),
      E.arrayToVectorOk (audioBufferToMono b) = false →
      detectBPM E b = { bpm := 120, confidence := 0 }) ∧
    (∀ (E : Essentia) (b : AudioBuffer),
      (detectBPM E b).bpm =
        jsRound (if E.arrayToVectorOk (audioBufferToMono b) = false then 120
          else (underlyingBPM E (audioBufferToMono b)).1)) := by
  constructor
  · intro E b h
    simp [detectBPM, h]
  · intro E b
    by_cases h : E.arrayToVectorOk (audioBufferToMono b) = false
    · have h120 : jsRound 120 = 120 := by
        unfold jsRound
        rw [Int.floor_eq_iff]
        norm_num
      simp [detectBPM, h, h120]
    · simp [detectBPM, h]

/-- C5 witness: a concrete oracle whose `arrayToVector` throws makes
`detectBPM` resolve with the default result. -/
theorem detectBPM_fallback_round_witness :
    failE.arrayToVectorOk (audioBufferToMono tinyBuf) = false ∧
    detectBPM failE tinyBuf = { bpm := 120, confidence := 0 } :=
  ⟨rfl, detectBPM_fallback_round.1 failE tinyBuf rfl⟩

/-- C1 (amended): for a positive sample rate, the onset times returned by
`detectOnsets` are strictly increasing, adjacent times differ by at least
`minDistanceFrames * hopSize / sampleRate` seconds where
`minDistanceFrames = floor(minDistance * sampleRate / hopSize)` (which can
be slightly less than `minDistance` because of the floor), and the sample
index array is the seconds array mapped through `floor(t * sampleRate)` —
in particular both arrays have the same length and order. -/
theorem detectOnsets_monotone_gap (E : Essentia) (hann : ℕ → ℕ → ℚ) (b : AudioBuffer)
    (sensitivity minDistance : ℚ) (hsr : 0 < b.sampleRate) :
    List.Chain' (· < ·) (detectOnsets E hann b sensitivity minDistance).times ∧
    List.Chain' (fun u v : ℚ =>
        u + ((⌊minDistance * b.sampleRate / (hopSize : ℚ)⌋ * (hopSize : ℤ) : ℤ) : ℚ) /
          b.sampleRate ≤ v)
      (detectOnsets E hann b sensitivity minDistance).times ∧
    (detectOnsets E hann b sensitivity minDistance).timestamps =
      (detectOnsets E hann b sensitivity minDistance).times.map (fun t => ⌊t * b.sampleRate⌋) ∧
    (detectOnsets E hann b sensitivity minDistance).timestamps.length =
      (detectOnsets E hann b sensitivity minDistance).times.length := by
  have hchain := pickPeaks_chain
    (onsetFlux E hann (audioBufferToMono b) b.length)
    (calculateThreshold (onsetFlux E hann (audioBufferToMono b) b.length) sensitivity)
    ⌊minDistance * b.sampleRate / (hopSize : ℚ)⌋
  refine ⟨?_, ?_, ?_, ?_⟩
  · show List.Chain' (· < ·) (List.map _ (pickPeaks _ _ _))
    rw [List.chain'_map]
    refine hchain.imp ?_
    intro a c h
    have h1 : a * hopSize < c * hopSize :=
      (Nat.mul_lt_mul_right (show 0 < hopSize by norm_num [hopSize])).mpr h.1
    have h2 : ((a * hopSize : ℕ) : ℚ) < ((c * hopSize : ℕ) : ℚ) := by exact_mod_cast h1
    exact div_lt_div_of_pos_right h2 hsr
  · show List.Chain' _ (List.map _ (pickPeaks _ _ _))
    rw [List.chain'_map]
    refine hchain.imp ?_
    intro a c h
    set mdf := ⌊minDistance * b.sampleRate / (hopSize : ℚ)⌋ with hmdf
    have h1 : ((a : ℤ) + mdf) * (hopSize : ℤ) ≤ (c : ℤ) * (hopSize : ℤ) :=
      mul_le_mul_of_nonneg_right h.2 (by norm_num [hopSize])
    have h1' : (a : ℤ) * (hopSize : ℤ) + mdf * (hopSize : ℤ) ≤ (c : ℤ) * (hopSize : ℤ) := by
      rw [add_mul] at h1
      exact h1
    have h2 : ((a * hopSize : ℕ) : ℚ) + ((mdf * hopSize : ℤ) : ℚ) ≤ ((c * hopSize : ℕ) : ℚ) := by
      exact_mod_cast h1'
    calc ((a * hopSize : ℕ) : ℚ) / b.sampleRate + ((mdf * hopSize : ℤ) : ℚ) / b.sampleRate
        = (((a * hopSize : ℕ) : ℚ) + ((mdf * hopSize : ℤ) : ℚ)) / b.sampleRate := by
          rw [div_add_div_same]
      _ ≤ ((c * hopSize : ℕ) : ℚ) / b.sampleRate := (div_le_div_iff_of_pos_right hsr).mpr h2
  · show List.map _ (pickPeaks _ _ _) = List.map _ (List.map _ (pickPeaks _ _ _))
    rw [List.map_map]
    rfl
  · simp [detectOnsets]

/-- C1 witness: the hypothesis holds at the concrete 44100 Hz buffer. -/
theorem detectOnsets_monotone_gap_witness :
    (0 : ℚ) < c1buf.sampleRate ∧
    (List.Chain' (· < ·) (detectOnsets sampleReadE hannOne c1buf (1 / 2) (1 / 40)).times ∧
     List.Chain' (fun u v : ℚ =>
         u + ((⌊(1 / 40 : ℚ) * c1buf.sampleRate / (hopSize : ℚ)⌋ * (hopSize : ℤ) : ℤ) : ℚ) /
           c1buf.sampleRate ≤ v)
       (detectOnsets sampleReadE hannOne c1buf (1 / 2) (1 / 40)).times ∧
     (detectOnsets sampleReadE hannOne c1buf (1 / 2) (1 / 40)).timestamps =
       (detectOnsets sampleReadE hannOne c1buf (1 / 2) (1 / 40)).times.map
         (fun t => ⌊t * c1buf.sampleRate⌋) ∧
     (detectOnsets sampleReadE hannOne c1buf (1 / 2) (1 / 40)).timestamps.length =
       (detectOnsets sampleReadE hannOne c1buf (1 / 2) (1 / 40)).times.length) :=
  ⟨by norm_num [c1buf],
   detectOnsets_monotone_gap sampleReadE hannOne c1buf (1 / 2) (1 / 40)
     (by norm_num [c1buf])⟩

/-- C1 counterexample: with `minDistance = 1/40` seconds at 44100 Hz,
`minDistanceFrames = floor(0.025 * 44100 / 512) = 2`, so two onsets can be
accepted 2 frames = 1024 samples = 1024/44100 s ≈ 0.02322 s apart, which
is less than `minDistance`: the claim that adjacent returned times differ
by at least `minDistance` seconds fails on this buffer. -/
theorem detectOnsets_minDistance_cex :
    (detectOnsets sampleReadE hannOne c1buf (1 / 2) (1 / 40)).times =
      [512 / 44100, 1536 / 44100] ∧
    ¬ List.Chain' (fun u v : ℚ => u + 1 / 40 ≤ v)
      (detectOnsets sampleReadE hannOne c1buf (1 / 2) (1 / 40)).times := by
  constructor
  · rw [c1_eval]
  · rw [c1_eval]
    intro hch
    rw [List.chain'_cons] at hch
    have h := hch.1
    norm_num at h

/-- C2: the code passes `sensitivity` directly as the MAD multiplier, so a
higher sensitivity RAISES the adaptive threshold
(`median + sensitivity * MAD`) and can only lose onsets — the opposite of
the documented `// 0-1, higher = more sensitive` contract. On a buffer
with flux `[0, 2, 1, 7/5, 1, 2, 0]` (median 1, MAD 1), sensitivity 0.1
gives threshold 1.1 and 3 onsets while sensitivity 0.9 gives threshold 1.9
and only 2 onsets. -/
theorem sensitivity_fewer_onsets :
    calculateThreshold [0, 2, 1, 7 / 5, 1, 2, 0] (1 / 10) <
      calculateThreshold [0, 2, 1, 7 / 5, 1, 2, 0] (9 / 10) ∧
    (detectOnsets sampleReadE hannOne c2buf (9 / 10) (1 / 1000)).times.length <
      (detectOnsets sampleReadE hannOne c2buf (1 / 10) (1 / 1000)).times.length := by
  have hthr1 : calculateThreshold [0, 2, 1, 7 / 5, 1, 2, 0] (1 / 10) = 11 / 10 := by
    norm_num [calculateThreshold, sortAsc, insertAsc, abs_of_nonneg, abs_of_nonpos,
      List.cons_ne_nil]
  have hthr9 : calculateThreshold [0, 2, 1, 7 / 5, 1, 2, 0] (9 / 10) = 19 / 10 := by
    norm_num [calculateThreshold, sortAsc, insertAsc, abs_of_nonneg, abs_of_nonpos,
      List.cons_ne_nil]
  have hmdf : ⌊(1 / 1000 : ℚ) * c2buf.sampleRate / (hopSize : ℚ)⌋ = 0 := by
    rw [show c2buf.sampleRate = 44100 from rfl, show ((hopSize : ℕ) : ℚ) = 512 from rfl,
      Int.floor_eq_iff]
    norm_num
  have hp1 : pickPeaks [0, 2, 1, 7 / 5, 1, 2, 0] (11 / 10) 0 = [1, 3, 5] := by
    norm_num [pickPeaks, pickPeaksAux, minDistOk]
  have hp9 : pickPeaks [0, 2, 1, 7 / 5, 1, 2, 0] (19 / 10) 0 = [1, 5] := by
    norm_num [pickPeaks, pickPeaksAux, minDistOk]
  constructor
  · rw [hthr1, hthr9]
    norm_num
  · simp only [detectOnsets]
    rw [c2_flux, hthr1, hthr9, hmdf, hp1, hp9]
    simp

/-- C7 (amended): over the exact reals, the similarity matrix is square of
size the frame count, its entries are the pairwise cosine similarities
(zero-norm pairs giving 0), it is symmetric, and a diagonal entry is 1
exactly when the corresponding chroma vector has nonzero norm — a
zero-norm row (as produced by the zero-vector chroma fallback) has
diagonal entry 0, not 1. -/
theorem buildSimilarityMatrix_props (features : List (List ℝ)) :
    (buildSimilarityMatrix Real.sqrt features).length = features.length ∧
    (∀ i : ℕ, ((buildSimilarityMatrix Real.sqrt features).getD i []).length =
      if i < features.length then features.length else 0) ∧
    (∀ i j : ℕ, ((buildSimilarityMatrix Real.sqrt features).getD i []).getD j 0 =
      cosineSimilarity Real.sqrt (features.getD i []) (features.getD j [])) ∧
    (∀ i j : ℕ, ((buildSimilarityMatrix Real.sqrt features).getD i []).getD j 0 =
      ((buildSimilarityMatrix Real.sqrt features).getD j []).getD i 0) ∧
    (∀ i : ℕ, ((buildSimilarityMatrix Real.sqrt features).getD i []).getD i 0 =
      if ((features.getD i []).map fun x => x * x).sum = 0 then 0 else 1) := by
  refine ⟨by simp [buildSimilarityMatrix], ?_, ?_, ?_, ?_⟩
  · intro i
    by_cases hi : i < features.length
    · have hi' : i < (buildSimilarityMatrix Real.sqrt features).length := by
        simpa [buildSimilarityMatrix] using hi
      rw [List.getD_eq_getElem _ _ hi', if_pos hi]
      simp [buildSimilarityMatrix]
    · have e1 : (buildSimilarityMatrix Real.sqrt features).getD i [] = [] :=
        List.getD_eq_default _ _ (by simpa [buildSimilarityMatrix] using Nat.le_of_not_lt hi)
      rw [e1, if_neg hi]
      rfl
  · intro i j
    exact simMatrix_getD Real.sqrt features i j
  · intro i j
    rw [simMatrix_getD, simMatrix_getD, cosineSimilarity_comm]
  · intro i
    rw [simMatrix_getD, cosineSimilarity_self]

/-- C7 counterexample: a single zero chroma vector (the fallback value the
feature pass pushes when `Chromagram` fails) yields the similarity matrix
`[[0]]`: the diagonal entry is 0, not 1 as the claim states. -/
theorem similarityMatrix_diag_cex :
    ((buildSimilarityMatrix Real.sqrt [List.replicate 12 (0 : ℝ)]).getD 0 []).getD 0 0 = 0 ∧
    (0 : ℝ) ≠ 1 := by
  constructor
  · rw [simMatrix_getD]
    have h0 : ([List.replicate 12 (0 : ℝ)].getD 0 []) = List.replicate 12 (0 : ℝ) := rfl
    rw [h0, cosineSimilarity_self, if_pos (by simp)]
  · exact zero_ne_one

/-- C6: the progress values emitted by `detectSongStructure` form a
non-decreasing sequence whose final value is 1.0 (the loop values
`0.6 * i / numFrames` are below the 0.6 milestone, followed by 0.8, 0.9,
0.95 and the final 1.0; in the model all pipeline stages are total, so the
resolution path is the only one, and the source's catch handler also emits
1.0 before rethrowing). -/
theorem detectSongStructure_progress (E : Essentia) (sqrtF : ℚ → ℚ) (b : AudioBuffer)
    (maxSections : ℕ) (minSectionDuration : ℚ) :
    List.Chain' (· ≤ ·) (detectSongStructure E sqrtF b maxSections minSectionDuration).2 ∧
    (detectSongStructure E sqrtF b maxSections minSectionDuration).2.getLast? = some 1 := by
  have h : (detectSongStructure E sqrtF b maxSections minSectionDuration).2 =
      structureTrace b.length := rfl
  rw [h]
  exact ⟨structureTrace_chain b.length, structureTrace_getLast b.length⟩

/-- C8 (amended): for a buffer of `N >= frameSize` mono samples the onset
pass processes `(N - frameSize) / hopSize + 1` frames, while the structure
feature pass processes only `(N - frameSize) / hopSize` frames (its
`numFrames` has no `+ 1`). -/
theorem frameCounts (N : ℕ) (h : frameSize ≤ N) :
    (onsetFrameStarts N).length = (N - frameSize) / hopSize + 1 ∧
    (structureFrameStarts N).length = (N - frameSize) / hopSize :=
  ⟨onsetFrameStarts_length h, structureFrameStarts_length h⟩

/-- C8 witness: at 100000 samples the two passes process 192 and 191
frames respectively. -/
theorem frameCounts_witness :
    frameSize ≤ 100000 ∧ (onsetFrameStarts 100000).length = 192 ∧
    (structureFrameStarts 100000).length = 191 :=
  ⟨by decide,
   (frameCounts 100000 (by decide)).1.trans (by decide),
   (frameCounts 100000 (by decide)).2.trans (by decide)⟩

/-- C8 counterexample: the claim predicts `floor((100000 - 2048) / 512) +
1 = 192` frames for both passes, but the structure feature pass processes
191. -/
theorem frameCount_cex :
    (onsetFrameStarts 100000).length = 192 ∧
    (structureFrameStarts 100000).length = 191 ∧ (191 : ℕ) ≠ 192 :=
  ⟨(onsetFrameStarts_length (by decide)).trans (by decide),
   (structureFrameStarts_length (by decide)).trans (by decide),
   by decide⟩

theorem labelGo_getD (total : ℕ) (norms : List ℚ) (dur : ℚ) :
    ∀ (bs : List SectionBoundary) (start i : ℕ), i < bs.length →
      (labelGo total norms dur start bs).getD i noSection =
        labelOne total norms dur (start + i) (bs.getD i noSection) := by
  intro bs
  induction bs with
  | nil =>
    intro start i h
    simp at h
  | cons b rest ih =>
    intro start i h
    cases i with
    | zero => simp [labelGo]
    | succ j =>
      have hj : j < rest.length := by simpa using h
      simp only [labelGo, List.getD_cons_succ]
      rw [ih (start + 1) j hj, show start + 1 + j = start + (j + 1) by omega]

/-- C9 (amended): each labeled section's confidence is its section mean
energy normalized by the maximum section energy and attached unchanged,
and its label follows the claimed fixed decision order (Intro / Outro /
Chorus / Verse / Bridge-or-Break / default Verse) with the 1-based index
appended — but the section mean is taken over the APPROXIMATE frame range
`floor(startTime * 44.1) .. floor(endTime * 44.1)`, hardcoded at 44.1
frames per second, not over the section's actual frame range
`startTime * sampleRate / hopSize ..` — see the counterexample. -/
theorem labelSections_spec (bs : List SectionBoundary) (p : List ℚ) (dur : ℚ) (i : ℕ)
    (h : i < bs.length) :
    ((labelSections bs p dur).getD i noSection).confidence =
      (normalizedEnergies bs p).getD i 0 ∧
    ((labelSections bs p dur).getD i noSection).label =
      claimLabel bs.length i ((bs.getD i noSection).startTime / dur)
        ((normalizedEnergies bs p).getD i 0) := by
  have hne : bs ≠ [] := by
    intro hb
    rw [hb] at h
    simp at h
  unfold labelSections
  rw [if_neg hne, labelGo_getD bs.length (normalizedEnergies bs p) dur bs 0 i h,
    Nat.zero_add]
  exact ⟨rfl, rfl⟩

/-- C9 witness: the first section of the concrete two-section input. -/
theorem labelSections_spec_witness :
    0 < c9bounds.length ∧
    (((labelSections c9bounds c9profile c9dur).getD 0 noSection).confidence =
        (normalizedEnergies c9bounds c9profile).getD 0 0 ∧
      ((labelSections c9bounds c9profile c9dur).getD 0 noSection).label =
        claimLabel c9bounds.length 0 ((c9bounds.getD 0 noSection).startTime / c9dur)
          ((normalizedEnergies c9bounds c9profile).getD 0 0)) :=
  ⟨by decide, labelSections_spec c9bounds c9profile c9dur 0 (by decide)⟩

theorem c9_eA : sectionEnergy c9profile c9A = 1 := by
  have h1 : (⌊c9A.startTime * (441 / 10)⌋ : ℤ) = 0 := by
    show (⌊(0 : ℚ) * (441 / 10)⌋ : ℤ) = 0
    norm_num
  have h2 : (⌊c9A.endTime * (441 / 10)⌋ : ℤ) = 5 := by
    show (⌊(5120 / 44100 : ℚ) * (441 / 10)⌋ : ℤ) = 5
    rw [Int.floor_eq_iff]
    norm_num
  have h3 : intRange 0 (min 5 ((c9profile.length : ℕ) : ℤ)) = [0, 1, 2, 3, 4] := by decide
  have h4 : (([0, 1, 2, 3, 4] : List ℤ).map fun i => c9profile.getD i.toNat 0) =
      [1, 1, 1, 1, 1] := by decide
  simp only [sectionEnergy, h1, h2, h3, h4]
  norm_num

theorem c9_eB : sectionEnergy c9profile c9B = 0 := by
  have h1 : (⌊c9B.startTime * (441 / 10)⌋ : ℤ) = 5 := by
    show (⌊(5120 / 44100 : ℚ) * (441 / 10)⌋ : ℤ) = 5
    rw [Int.floor_eq_iff]
    norm_num
  have h2 : (⌊c9B.endTime * (441 / 10)⌋ : ℤ) = 7 := by
    show (⌊(7680 / 44100 : ℚ) * (441 / 10)⌋ : ℤ) = 7
    rw [Int.floor_eq_iff]
    norm_num
  have h3 : intRange 5 (min 7 ((c9profile.length : ℕ) : ℤ)) = [5, 6] := by decide
  have h4 : (([5, 6] : List ℤ).map fun i => c9profile.getD i.toNat 0) = [0, 0] := by decide
  simp only [sectionEnergy, h1, h2, h3, h4]
  norm_num

theorem c9_energies : sectionEnergies c9bounds c9profile = [1, 0] := by
  simp only [sectionEnergies, c9bounds, List.map_cons, List.map_nil, c9_eA, c9_eB]

theorem c9_max : maxSectionEnergy c9bounds c9profile = 1 := by
  rw [maxSectionEnergy, c9_energies]
  show (some (max (1 : ℚ) 0)).getD 0 = 1
  rw [Option.getD_some, max_eq_left (by norm_num)]

theorem c9_norm : normalizedEnergies c9bounds c9profile = [1, 0] := by
  simp only [normalizedEnergies, c9_energies, c9_max]
  norm_num

theorem c9_code_conf :
    (labelSections c9bounds c9profile c9dur).map (fun s => s.confidence) = [1, 0] := by
  have hne : c9bounds ≠ [] := by decide
  unfold labelSections
  rw [if_neg hne, c9_norm]
  rfl

theorem c9_mA : claimSectionMean 44100 c9profile c9A = 1 / 2 := by
  have hhop : ((hopSize : ℕ) : ℚ) = 512 := by norm_num [hopSize]
  have h1 : (⌊c9A.startTime * 44100 / ((hopSize : ℕ) : ℚ)⌋ : ℤ) = 0 := by
    show (⌊(0 : ℚ) * 44100 / ((hopSize : ℕ) : ℚ)⌋ : ℤ) = 0
    norm_num
  have h2 : (⌊c9A.endTime * 44100 / ((hopSize : ℕ) : ℚ)⌋ : ℤ) = 10 := by
    show (⌊(5120 / 44100 : ℚ) * 44100 / ((hopSize : ℕ) : ℚ)⌋ : ℤ) = 10
    rw [hhop, show (5120 / 44100 : ℚ) * 44100 / 512 = ((10 : ℤ) : ℚ) by norm_num,
      Int.floor_intCast]
  have h3 : intRange 0 (min 10 ((c9profile.length : ℕ) : ℤ)) =
      [0, 1, 2, 3, 4, 5, 6, 7, 8, 9] := by decide
  have h4 : (([0, 1, 2, 3, 4, 5, 6, 7, 8, 9] : List ℤ).map fun i => c9profile.getD i.toNat 0) =
      [1, 1, 1, 1, 1, 0, 0, 0, 0, 0] := by decide
  simp only [claimSectionMean, h1, h2, h3, h4]
  norm_num

theorem c9_mB : claimSectionMean 44100 c9profile c9B = 1 := by
  have hhop : ((hopSize : ℕ) : ℚ) = 512 := by norm_num [hopSize]
  have h1 : (⌊c9B.startTime * 44100 / ((hopSize : ℕ) : ℚ)⌋ : ℤ) = 10 := by
    show (⌊(5120 / 44100 : ℚ) * 44100 / ((hopSize : ℕ) : ℚ)⌋ : ℤ) = 10
    rw [hhop, show (5120 / 44100 : ℚ) * 44100 / 512 = ((10 : ℤ) : ℚ) by norm_num,
      Int.floor_intCast]
  have h2 : (⌊c9B.endTime * 44100 / ((hopSize : ℕ) : ℚ)⌋ : ℤ) = 15 := by
    show (⌊(7680 / 44100 : ℚ) * 44100 / ((hopSize : ℕ) : ℚ)⌋ : ℤ) = 15
    rw [hhop, show (7680 / 44100 : ℚ) * 44100 / 512 = ((15 : ℤ) : ℚ) by norm_num,
      Int.floor_intCast]
  have h3 : intRange 10 (min 15 ((c9profile.length : ℕ) : ℤ)) =
      [10, 11, 12, 13, 14] := by decide
  have h4 : (([10, 11, 12, 13, 14] : List ℤ).map fun i => c9profile.getD i.toNat 0) =
      [1, 1, 1, 1, 1] := by decide
  simp only [claimSectionMean, h1, h2, h3, h4]
  norm_num

theorem c9_claim_conf : claimSectionConfidences 44100 c9bounds c9profile = [1 / 2, 1] := by
  have hes : c9bounds.map (claimSectionMean 44100 c9profile) = [1 / 2, 1] := by
    simp only [c9bounds, List.map_cons, List.map_nil, c9_mA, c9_mB]
  simp only [claimSectionConfidences, hes]
  have hmax : (([1 / 2, 1] : List ℚ).max?).getD 0 = 1 := by
    show (some (max (1 / 2 : ℚ) 1)).getD 0 = 1
    rw [Option.getD_some, max_eq_right (by norm_num)]
  rw [hmax]
  norm_num

/-- C9 counterexample: on a 15-frame profile (energy 1 on frames 0-4 and
10-14, 0 on frames 5-9) with sections over the actual frame ranges
`[0, 10)` and `[10, 15)` at 44100 Hz, the implementation's confidences
(computed over the 44.1-fps approximate frame ranges `[0, 5)` and
`[5, 7)`) are `[1, 0]`, while the claim's actual-frame-range confidences
are `[1/2, 1]`. -/
theorem labelSections_confidence_cex :
    (labelSections c9bounds c9profile c9dur).map (fun s => s.confidence) = [1, 0] ∧
    claimSectionConfidences 44100 c9bounds c9profile = [1 / 2, 1] ∧
    (1 : ℚ) ≠ 1 / 2 ∧ (0 : ℚ) ≠ 1 :=
  ⟨c9_code_conf, c9_claim_conf, by norm_num, by norm_num⟩

end MediaLibrary
